import Mathlib

/-!
Shallow embedding of the oneinfra `cluster` package (`cluster.go`) together
with the parts of the Go standard library (`net`, `math/big`, `fmt`) that it
relies on.  Go strings and byte slices are modelled as `List Nat`, one entry
per byte (every entry is below 256 for well-formed data); the Go `nil` slice
is modelled as the empty list.  Effectful external generators (certificate
generation, wireguard key generation, the k8s serializer) are modelled as
explicit oracle inputs, so all definitions are pure and executable.
-/

/-- Go strings / byte slices: a list of bytes. -/
abbrev GoStr := List Nat

/-- Encode a Lean string literal as Go bytes (all literals used are ASCII). -/
def gostr (s : String) : GoStr := s.data.map Char.toNat

/-- Digit loop of Go's `uitoa` (`net/parse.go`); the fuel only bounds the
number of iterations (structural recursion keeps the definition computable
in the kernel) and the value itself always suffices as fuel. -/
def uitoaFuel : Nat → Nat → GoStr
  | 0, v => [48 + v]
  | fuel + 1, v =>
    if v < 10 then [48 + v]
    else uitoaFuel fuel (v / 10) ++ [48 + v % 10]

/-- `uitoa` from Go's `net` package (`parse.go`): decimal rendering of an
unsigned integer, as bytes. -/
def uitoa (v : Nat) : GoStr := uitoaFuel v v

/-- Loop body of Go's `dtoi` (`net/parse.go`): reads a decimal prefix,
returning the value, the number of bytes consumed and an ok flag; values
reaching `0xFFFFFF` abort with `(0xFFFFFF, i, false)`. -/
def dtoiLoop : GoStr → Nat → Nat → Nat × Nat × Bool
  | [], n, i => if i = 0 then (0, 0, false) else (n, i, true)
  | c :: s, n, i =>
    if 48 ≤ c ∧ c ≤ 57 then
      let n1 := n * 10 + (c - 48)
      if n1 ≥ 0xFFFFFF then (0xFFFFFF, i, false)
      else dtoiLoop s n1 (i + 1)
    else if i = 0 then (0, 0, false) else (n, i, true)

/-- Go `dtoi`. -/
def dtoi (s : GoStr) : Nat × Nat × Bool := dtoiLoop s 0 0

/-- Loop body of Go's `xtoi` (`net/parse.go`): hexadecimal prefix parser. -/
def xtoiLoop : GoStr → Nat → Nat → Nat × Nat × Bool
  | [], n, i => if i = 0 then (0, i, false) else (n, i, true)
  | c :: s, n, i =>
    if 48 ≤ c ∧ c ≤ 57 then
      let n1 := n * 16 + (c - 48)
      if n1 ≥ 0xFFFFFF then (0, i, false) else xtoiLoop s n1 (i + 1)
    else if 97 ≤ c ∧ c ≤ 102 then
      let n1 := n * 16 + (c - 97) + 10
      if n1 ≥ 0xFFFFFF then (0, i, false) else xtoiLoop s n1 (i + 1)
    else if 65 ≤ c ∧ c ≤ 70 then
      let n1 := n * 16 + (c - 65) + 10
      if n1 ≥ 0xFFFFFF then (0, i, false) else xtoiLoop s n1 (i + 1)
    else if i = 0 then (0, i, false) else (n, i, true)

/-- Go `xtoi`. -/
def xtoi (s : GoStr) : Nat × Nat × Bool := xtoiLoop s 0 0

/-- One lowercase hexadecimal digit byte (Go's `hexDigit` table). -/
def hexDigitByte (d : Nat) : Nat := if d < 10 then 48 + d else 87 + d

/-- Digit loop of Go `appendHex` (`net/ip.go`), fuel-structured as above. -/
def hexNatFuel : Nat → Nat → GoStr
  | 0, v => [hexDigitByte v]
  | fuel + 1, v =>
    if v < 16 then [hexDigitByte v]
    else hexNatFuel fuel (v / 16) ++ [hexDigitByte (v % 16)]

/-- Go `appendHex` (`net/ip.go`): minimal lowercase hex rendering. -/
def hexNat (v : Nat) : GoStr := hexNatFuel v v

/-- Go `hexString` (`net/ip.go`): two hex digits per byte. -/
def hexStringBytes (b : GoStr) : GoStr :=
  (b.map fun x => [hexDigitByte (x / 16), hexDigitByte (x % 16)]).flatten

/-- One byte under Go's `strconv.Quote` (the `%q` verb): `"` and `\` get a
backslash, printable ASCII is copied, the named control escapes
`\a \b \t \n \v \f \r` apply, and any other byte below `0x80` becomes
`\xHH` (lowercase hex).  Bytes at `0x80` and above are also rendered `\xHH`,
which matches Go exactly when they are not part of a valid printable
non-ASCII UTF-8 rune; every theorem below that inspects a quoted value
restricts itself to ASCII data, where this table is exact. -/
def quoteByte (b : Nat) : GoStr :=
  if b = 34 then [92, 34]
  else if b = 92 then [92, 92]
  else if 32 ≤ b ∧ b ≤ 126 then [b]
  else if b = 7 then [92, 97]
  else if b = 8 then [92, 98]
  else if b = 9 then [92, 116]
  else if b = 10 then [92, 110]
  else if b = 11 then [92, 118]
  else if b = 12 then [92, 102]
  else if b = 13 then [92, 114]
  else [92, 120, hexDigitByte (b / 16), hexDigitByte (b % 16)]

/-- Go `strconv.Quote` (the rendering of the `%q` verb): the escaped bytes
surrounded by double quotes. -/
def goQuote (s : GoStr) : GoStr := 34 :: (s.map quoteByte).flatten ++ [34]

/-- Byte loop of `(*big.Int).Bytes()`, fuel-structured as above. -/
def beBytesFuel : Nat → Nat → GoStr
  | 0, _ => []
  | fuel + 1, v =>
    if v = 0 then []
    else beBytesFuel fuel (v / 256) ++ [v % 256]

/-- `(*big.Int).Bytes()`: minimal big-endian byte representation (`0 ↦ []`). -/
def beBytes (v : Nat) : GoStr := beBytesFuel v v

/-- `(*big.Int).SetBytes`: value of a big-endian byte string. -/
def beBytesToNat (b : GoStr) : Nat := b.foldl (fun a x => a * 256 + x) 0

/-- Fixed four-byte big-endian rendering of a value below `2^32`. -/
def be32 (x : Nat) : GoStr := [x / 2 ^ 24 % 256, x / 2 ^ 16 % 256, x / 2 ^ 8 % 256, x % 256]

/-! ## The `net` package model -/

/-- Go's `v4InV6Prefix`: the first 12 bytes of an IPv4 address stored in
16-byte form. -/
def v4InV6Head : GoStr := [0, 0, 0, 0, 0, 0, 0, 0, 0, 0, 255, 255]

/-- Go `net.IPv4`: builds the 16-byte representation of an IPv4 address. -/
def IPv4 (a b c d : Nat) : GoStr := v4InV6Head ++ [a, b, c, d]

/-- Go `IP.To4`: `[]` models a `nil` result. -/
def To4 (ip : GoStr) : GoStr :=
  if ip.length = 4 then ip
  else if ip.length = 16 ∧ ip.take 12 = v4InV6Head then ip.drop 12
  else []

/-- Go `IP.To16`: `[]` models a `nil` result. -/
def To16 (ip : GoStr) : GoStr :=
  if ip.length = 4 then v4InV6Head ++ ip
  else if ip.length = 16 then ip
  else []

/-- Go `net.IPNet`. -/
structure IPNet where
  IP : GoStr
  Mask : GoStr
deriving DecidableEq

/-- Byte loop of Go `net.CIDRMask`: `l` bytes, the first `ones` bits set. -/
def cidrMaskBytes (ones : Nat) : Nat → GoStr
  | 0 => []
  | l + 1 =>
    if ones ≥ 8 then 255 :: cidrMaskBytes (ones - 8) l
    else (255 - (255 >>> ones)) :: cidrMaskBytes 0 l

/-- Go `net.CIDRMask` (`[]` models `nil`). -/
def CIDRMask (ones bits : Nat) : GoStr :=
  if (bits = 32 ∨ bits = 128) ∧ ones ≤ bits then cidrMaskBytes ones (bits / 8) else []

/-- Go `IP.Mask` (the masking method on addresses; `[]` models `nil`). -/
def maskIP (ip mask : GoStr) : GoStr :=
  let mask :=
    if mask.length = 16 ∧ ip.length = 4 ∧ mask.take 12 = List.replicate 12 255
    then mask.drop 12 else mask
  let ip :=
    if mask.length = 4 ∧ ip.length = 16 ∧ ip.take 12 = v4InV6Head
    then ip.drop 12 else ip
  if ip.length ≠ mask.length then []
  else List.zipWith (fun a b => a &&& b) ip mask

/-- Go `networkNumberAndMask` (`net/ip.go`); `([], [])` models `(nil, nil)`. -/
def networkNumberAndMask (n : IPNet) : GoStr × GoStr :=
  let ip0 := To4 n.IP
  let ip := if ip0 = [] then n.IP else ip0
  if ip0 = [] ∧ n.IP.length ≠ 16 then ([], [])
  else
    let m := n.Mask
    if m.length = 4 then
      if ip.length ≠ 4 then ([], []) else (ip, m)
    else if m.length = 16 then
      if ip.length = 4 then (ip, m.drop 12) else (ip, m)
    else ([], [])

/-- Go `(*IPNet).Contains`. -/
def Contains (n : IPNet) (ip : GoStr) : Bool :=
  let nnm := networkNumberAndMask n
  let x := To4 ip
  let ip := if x = [] then ip else x
  if ip.length ≠ nnm.1.length then false
  else
    (List.range ip.length).all fun i =>
      (nnm.1.getD i 0 &&& nnm.2.getD i 0) = (ip.getD i 0 &&& nnm.2.getD i 0)

/-- Inner shift loop of Go `simpleMaskLength`: counts leading one bits of a
byte, returning the count and the leftover shifted byte. -/
def byteOnesLoop : Nat → Nat → Nat × Nat
  | v, 0 => (0, v)
  | v, fuel + 1 =>
    if v &&& 128 ≠ 0 then
      let r := byteOnesLoop ((v <<< 1) % 256) fuel
      (r.1 + 1, r.2)
    else (0, v)

/-- Go `simpleMaskLength` (`none` models `-1`). -/
def simpleMaskLength : GoStr → Option Nat
  | [] => some 0
  | v :: rest =>
    if v = 255 then (simpleMaskLength rest).map (· + 8)
    else
      let r := byteOnesLoop v 8
      if r.2 ≠ 0 then none
      else if rest.any (· ≠ 0) then none
      else some r.1

/-- 16-bit groups of a 16-byte IPv6 address. -/
def ipGroups : GoStr → List Nat
  | a :: b :: rest => (a * 256 + b) :: ipGroups rest
  | _ => []

/-- Zero-run scan of Go `IP.String` (fuel-structured; the list length always
suffices as fuel since every iteration consumes at least one group): finds
the leftmost strictly-longest run of zero groups, in group indices. -/
def zeroRunFuel : Nat → List Nat → Nat → Nat × Nat → Nat × Nat
  | 0, _, _, best => best
  | fuel + 1, gs, i, best =>
    match gs with
    | [] => best
    | g :: rest =>
      let j := if g = 0 then 1 + (rest.takeWhile (· = 0)).length else 0
      if j > 0 ∧ j > best.2 - best.1 then
        zeroRunFuel fuel (rest.drop (j - 1)) (i + j) (i, i + j)
      else
        zeroRunFuel fuel rest (i + 1) best

/-- The zero-run scan at its natural fuel. -/
def zeroRunLoop (gs : List Nat) (i : Nat) (best : Nat × Nat) : Nat × Nat :=
  zeroRunFuel gs.length gs i best

/-- The `::` elision window of Go `IP.String` (`none`: no elision; runs of a
single zero group are not elided). -/
def zeroRun (groups : List Nat) : Option (Nat × Nat) :=
  let r := zeroRunLoop groups 0 (0, 0)
  if r.2 - r.1 ≤ 1 then none else some r

/-- Go `IP.String`. -/
def ipString (ip : GoStr) : GoStr :=
  if ip.length = 0 then gostr "<nil>"
  else
    let p4 := To4 ip
    if p4.length = 4 then
      uitoa (p4.getD 0 0) ++ 46 :: (uitoa (p4.getD 1 0) ++ 46 ::
        (uitoa (p4.getD 2 0) ++ 46 :: uitoa (p4.getD 3 0)))
    else if ip.length ≠ 16 then 63 :: hexStringBytes ip
    else
      let gs := ipGroups ip
      match zeroRun gs with
      | none => List.intercalate [58] (gs.map hexNat)
      | some (a, b) =>
        List.intercalate [58] ((gs.take a).map hexNat) ++ 58 :: 58 ::
          List.intercalate [58] ((gs.drop b).map hexNat)

/-- Go `IPMask.String`. -/
def ipMaskString (m : GoStr) : GoStr :=
  if m.length = 0 then gostr "<nil>" else hexStringBytes m

/-- Go `(*IPNet).String`. -/
def ipNetString (n : IPNet) : GoStr :=
  let nnm := networkNumberAndMask n
  if nnm.1 = [] ∨ nnm.2 = [] then gostr "<nil>"
  else
    match simpleMaskLength nnm.2 with
    | none => ipString nnm.1 ++ 47 :: ipMaskString nnm.2
    | some l => ipString nnm.1 ++ 47 :: uitoa l

/-! ## The `net` package parsers (Go 1.13 era, as vendored by the repo) -/

/-- Field loop of Go `parseIPv4`; `acc` holds the fields parsed so far
(reversed), standing for Go's index `i` and array `p`. `none` models `nil`. -/
def parseIPv4Loop : Nat → GoStr → List Nat → Option (List Nat)
  | 0, s, acc => if s.isEmpty then some acc.reverse else none
  | fl + 1, s, acc =>
    if s.isEmpty then none
    else
      let afterDot : Option GoStr :=
        if acc.isEmpty then some s
        else match s with
          | 46 :: rest => some rest
          | _ => none
      match afterDot with
      | none => none
      | some s =>
        let r := dtoi s
        if r.2.2 = false ∨ r.1 > 0xFF then none
        else parseIPv4Loop fl (s.drop r.2.1) (r.1 :: acc)

/-- Go `parseIPv4`; the result is the 16-byte `IPv4(...)` form, `[]` models
 `nil`. -/
def parseIPv4 (s : GoStr) : GoStr :=
  match parseIPv4Loop 4 s [] with
  | some [a, b, c, d] => IPv4 a b c d
  | _ => []

/-- Main loop of Go `parseIPv6`.  `acc` holds the bytes written so far (its
length is Go's index `i`), `ell` the recorded `::` position.  The result is
`(unconsumed input, bytes, ellipsis)`; `none` models returning `nil`. -/
def parseIPv6Loop : Nat → GoStr → List Nat → Option Nat →
    Option (GoStr × List Nat × Option Nat)
  | 0, s, acc, ell => some (s, acc, ell)
  | fuel + 1, s, acc, ell =>
    if acc.length ≥ 16 then some (s, acc, ell)
    else
      let r := xtoi s
      if r.2.2 = false ∨ r.1 > 0xFFFF then none
      else if r.2.1 < s.length ∧ (s.drop r.2.1).head? = some 46 then
        -- an embedded IPv4 address terminates the address
        if (ell.isNone ∧ acc.length ≠ 12) ∨ acc.length + 4 > 16 then none
        else
          let ip4 := parseIPv4 s
          if ip4 = [] then none
          else some ([], acc ++ ip4.drop 12, ell)
      else
        let acc := acc ++ [r.1 / 256, r.1 % 256]
        let s := s.drop r.2.1
        if s.isEmpty then some ([], acc, ell)
        else if s.head? ≠ some 58 ∨ s.length = 1 then none
        else
          let s := s.tail
          if s.head? = some 58 then
            if ell.isSome then none
            else
              let s := s.tail
              if s.isEmpty then some ([], acc, some acc.length)
              else parseIPv6Loop fuel s acc (some acc.length)
          else parseIPv6Loop fuel s acc ell

/-- Post-processing of Go `parseIPv6`'s loop: the trailing-input check and
the expansion of the recorded `::` into zero bytes. -/
def parseIPv6Post : Option (GoStr × List Nat × Option Nat) → GoStr
  | none => []
  | some (rest, acc, ell) =>
    if ¬ rest.isEmpty then []
    else if acc.length < 16 then
      match ell with
      | none => []
      | some e => acc.take e ++ List.replicate (16 - acc.length) 0 ++ acc.drop e
    else
      match ell with
      | some _ => []
      | none => acc

/-- Go `parseIPv6` (`[]` models `nil`): a leading `::` is recorded before
the loop, and an input that is exactly `::` short-circuits to the zero
address. -/
def parseIPv6 (s : GoStr) : GoStr :=
  if s.length ≥ 2 ∧ s.take 2 = [58, 58] then
    if (s.drop 2).isEmpty then List.replicate 16 0
    else parseIPv6Post (parseIPv6Loop 8 (s.drop 2) [] (some 0))
  else parseIPv6Post (parseIPv6Loop 8 s [] none)

/-- Go `splitHostZone` followed by `parseIPv6` (`parseIPv6Zone`); the zone is
discarded, as in `ParseCIDR` and `ParseIP`. -/
def parseIPv6Zone (s : GoStr) : GoStr :=
  match (s.reverse.findIdx? (· = 37)) with
  | some ri =>
    let i := s.length - 1 - ri
    if i > 0 then parseIPv6 (s.take i) else parseIPv6 s
  | none => parseIPv6 s

/-- Scan of Go `net.ParseIP`: dispatch on the first `.` or `:`. -/
def parseIPScan (s : GoStr) : GoStr → GoStr
  | [] => []
  | c :: rest =>
    if c = 46 then parseIPv4 s
    else if c = 58 then parseIPv6Zone s
    else parseIPScan s rest

/-- Go `net.ParseIP` (`[]` models `nil`). -/
def ParseIP (s : GoStr) : GoStr := parseIPScan s s

/-- The body of Go `net.ParseCIDR` after the address/mask split: try the
IPv4 parser, fall back to IPv6, then parse and apply the prefix length. -/
def parseCIDRBody (addr maskStr : GoStr) : Option IPNet :=
  let ip4 := parseIPv4 addr
  let ipl : GoStr × Nat := if ip4 ≠ [] then (ip4, 4) else (parseIPv6Zone addr, 16)
  let r := dtoi maskStr
  if ipl.1 = [] ∨ r.2.2 = false ∨ r.2.1 ≠ maskStr.length ∨ r.1 > 8 * ipl.2 then none
  else
    let m := CIDRMask r.1 (8 * ipl.2)
    some ⟨maskIP ipl.1 m, m⟩

/-- Go `net.ParseCIDR`; only the `*IPNet` result is used by the repo, so the
address and the error are reduced to an `Option`. -/
def ParseCIDR (s : GoStr) : Option IPNet :=
  match s.findIdx? (· = 47) with
  | none => none
  | some i => parseCIDRBody (s.take i) (s.drop (i + 1))

/-! ## The repository's data model

The `internal/pkg/certificates` package and the `apis/cluster/v1alpha1`
package are not part of the shown sources; their types are modelled from the
spec (sections 3 and 6). -/

namespace certificates

/-- `certificates.Certificate`: a certificate plus private key pair
(spec section 3). -/
structure Certificate where
  Certificate : GoStr
  PrivateKey : GoStr
deriving DecidableEq

/-- Modelled from the spec: `certificates.NewCertificateFromv1alpha1`
(package `internal/pkg/certificates`, not among the shown sources) rebuilds
a certificate from its versioned representation; the projection is lossless
(spec sections 4.3 and 6). -/
def NewCertificateFromv1alpha1 (c : GoStr × GoStr) : Certificate :=
  { Certificate := c.1, PrivateKey := c.2 }

end certificates

namespace clusterv1alpha1

/-- Modelled from the spec: `clusterv1alpha1.Certificate`
(`spec.certificateAuthorities.*.{certificate,privateKey}`, section 6). -/
structure Certificate where
  Certificate : GoStr
  PrivateKey : GoStr
deriving DecidableEq

/-- Modelled from the spec: `clusterv1alpha1.CertificateAuthorities`
(section 6). -/
structure CertificateAuthorities where
  APIServerClient : Certificate
  CertificateSigner : Certificate
  Kubelet : Certificate
  EtcdClient : Certificate
  EtcdPeer : Certificate
deriving DecidableEq

/-- Modelled from the spec: `clusterv1alpha1.KeyPair`
(`spec.apiServer.serviceAccount`, section 6). -/
structure KeyPair where
  PublicKey : GoStr
  PrivateKey : GoStr
deriving DecidableEq

/-- Modelled from the spec: `clusterv1alpha1.KubeAPIServer` (section 6). -/
structure KubeAPIServer where
  CA : Certificate
  TLSCert : GoStr
  TLSPrivateKey : GoStr
  ServiceAccount : KeyPair
  ExtraSANs : List GoStr
deriving DecidableEq

/-- Modelled from the spec: `clusterv1alpha1.EtcdServer` (section 6). -/
structure EtcdServer where
  CA : Certificate
  TLSCert : GoStr
  TLSPrivateKey : GoStr
  ExtraSANs : List GoStr
deriving DecidableEq

/-- Modelled from the spec: `clusterv1alpha1.VPNPeer`
(`status.vpnPeers` entries, section 6). -/
structure VPNPeer where
  Name : GoStr
  Address : GoStr
  PrivateKey : GoStr
  PublicKey : GoStr
deriving DecidableEq

/-- Modelled from the spec: `clusterv1alpha1.ClusterSpec` (section 6). -/
structure ClusterSpec where
  CertificateAuthorities : CertificateAuthorities
  APIServer : KubeAPIServer
  EtcdServer : EtcdServer
  VPNCIDR : GoStr
deriving DecidableEq

/-- Modelled from the spec: `clusterv1alpha1.ClusterStatus` (section 6). -/
structure ClusterStatus where
  StorageClientEndpoints : List GoStr
  StoragePeerEndpoints : List GoStr
  VPNPeers : List VPNPeer
deriving DecidableEq

/-- Modelled from the spec: `clusterv1alpha1.Cluster` (section 6); of
`metav1.ObjectMeta` only the `Name` field is used. -/
structure Cluster where
  Name : GoStr
  Spec : ClusterSpec
  Status : ClusterStatus
deriving DecidableEq

end clusterv1alpha1

/-- `CertificateAuthorities` of the `cluster` package: the five fixed
certificate authorities of a cluster (spec section 3; the type itself lives
in a companion file of the package and is modelled from the spec and its
uses in `cluster.go`). -/
structure CertificateAuthorities where
  APIServerClient : certificates.Certificate
  CertificateSigner : certificates.Certificate
  Kubelet : certificates.Certificate
  EtcdClient : certificates.Certificate
  EtcdPeer : certificates.Certificate
deriving DecidableEq

/-- `EtcdServer` of the `cluster` package (modelled from the spec, section 3,
and its uses in `cluster.go`). -/
structure EtcdServer where
  CA : certificates.Certificate
  TLSCert : GoStr
  TLSPrivateKey : GoStr
  ExtraSANs : List GoStr
deriving DecidableEq

/-- `KubeAPIServer` of the `cluster` package (modelled from the spec,
section 3, and its uses in `cluster.go`). -/
structure KubeAPIServer where
  CA : certificates.Certificate
  TLSCert : GoStr
  TLSPrivateKey : GoStr
  ServiceAccountPublicKey : GoStr
  ServiceAccountPrivateKey : GoStr
  ExtraSANs : List GoStr
deriving DecidableEq

/-- `VPNPeer` of the `cluster` package. -/
structure VPNPeer where
  Name : GoStr
  Address : GoStr
  PrivateKey : GoStr
  PublicKey : GoStr
deriving DecidableEq

/-- `Cluster` of the `cluster` package (`cluster.go`).  Go pointer fields
are modelled as plain records; a `nil` pointer corresponds to the zero
record, and no theorem below depends on reading an unset field. -/
structure Cluster where
  Name : GoStr
  CertificateAuthorities : CertificateAuthorities
  EtcdServer : EtcdServer
  APIServer : KubeAPIServer
  StorageClientEndpoints : List GoStr
  StoragePeerEndpoints : List GoStr
  VPNCIDR : IPNet
  VPNPeers : List VPNPeer
deriving DecidableEq

/-- `Map` of the `cluster` package: a map of clusters.  A Go map iteration
has no specified order; the model fixes an association list, so the bulk
export theorems are stated relative to that chosen order. -/
abbrev Map := List (GoStr × Cluster)

/-- Modelled from the spec: a freshly generated wireguard key pair
(`wgtypes.GeneratePrivateKey`, external library; only the rendered private
key and derived public key strings are consumed by `cluster.go`). -/
structure WireguardKey where
  KeyString : GoStr
  PublicKeyString : GoStr
deriving DecidableEq

/-- Modelled from the spec: outcomes of the effectful generators called by
`NewCluster` — `newCertificateAuthorities`, `newEtcdServer`,
`newKubeAPIServer` (companion files of the package, spec section 4.1) and
`wgtypes.GeneratePrivateKey`.  Errors are their message strings. -/
structure GenEnv where
  newCertificateAuthorities : Except GoStr CertificateAuthorities
  newEtcdServer : List GoStr → Except GoStr EtcdServer
  newKubeAPIServer : List GoStr → Except GoStr KubeAPIServer
  generatePrivateKey : Except GoStr WireguardKey

/-! ## The operations of `cluster.go` -/

/-- The exhaustion error message of `requestVPNIP`: the `errors.Errorf`
rendering, with `%q` quoting the CIDR's `String()` (none of the bytes
involved need escaping). -/
def exhaustionMsg (net : IPNet) : GoStr :=
  gostr "not enough IP addresses to assign in the \"" ++
    ipNetString net ++ gostr "\" CIDR"

/-- The byte slice computed by `requestVPNIP` (`cluster.go`): the network
number plus `len(peers) + 1` as a big integer, rendered to bytes, skipping
the first two bytes unless the representation is 16 bytes long.  Go would
panic when the big integer has fewer than two bytes (a slice out of range)
— in the model `List.drop 2` is total; no theorem below touches that
case. -/
def vpnSlice (cluster : Cluster) : GoStr :=
  let assignedIP := cluster.VPNPeers.length + 1
  let vpnNetwork := beBytesToNat (To16 cluster.VPNCIDR.IP)
  let bytes := beBytes (vpnNetwork + assignedIP)
  if bytes.length = 16 then bytes else bytes.drop 2

/-- `requestVPNIP` (`cluster.go`): requests the next VPN address from the
VPN CIDR. -/
def requestVPNIP (cluster : Cluster) : Except GoStr GoStr :=
  if Contains cluster.VPNCIDR (vpnSlice cluster) then .ok (ipString (vpnSlice cluster))
  else .error (exhaustionMsg cluster.VPNCIDR)

/-- `GenerateVPNPeer` (`cluster.go`): mutation of the receiver is modelled
by returning the updated cluster next to the error; every early `return err`
leaves the receiver untouched.  `keyGen` is the outcome of the
`wgtypes.GeneratePrivateKey` call. -/
def Cluster.GenerateVPNPeer (cluster : Cluster) (peerName : GoStr)
    (keyGen : Except GoStr WireguardKey) : Option GoStr × Cluster :=
  match requestVPNIP cluster with
  | .error e => (some e, cluster)
  | .ok controlPlaneIngressVPNIP =>
    match keyGen with
    | .error e => (some e, cluster)
    | .ok privateKey =>
      let ipAddress := ParseIP controlPlaneIngressVPNIP
      let ipAddressNet : IPNet :=
        if ipAddress.length = 16 then ⟨ipAddress, CIDRMask 128 128⟩
        else ⟨ipAddress, CIDRMask 32 32⟩
      (none, { cluster with
        VPNPeers := cluster.VPNPeers ++ [{
          Name := peerName,
          Address := ipNetString ipAddressNet,
          PrivateKey := privateKey.KeyString,
          PublicKey := privateKey.PublicKeyString }] })

/-- `Cluster.VPNPeer` (`cluster.go`): linear lookup of a VPN peer by name;
the receiver is never written.  The not-found message renders the name with
the `%q` verb, i.e. `goQuote`. -/
def Cluster.VPNPeer (cluster : Cluster) (name : GoStr) :
    Option VPNPeer × Option GoStr :=
  match cluster.VPNPeers.find? (fun peer => peer.Name == name) with
  | some peer => (some peer, none)
  | none => (none, some (gostr "vpn peer " ++ goQuote name ++ gostr " not found"))

/-- `generateCertificates` (`cluster.go`): sets the three generated groups on
the receiver in order, aborting on the first failure (the fields already set
stay set, exactly as on the Go receiver). -/
def Cluster.generateCertificates (cluster : Cluster)
    (etcdServerExtraSANs apiServerExtraSANs : List GoStr) (env : GenEnv) :
    Option GoStr × Cluster :=
  match env.newCertificateAuthorities with
  | .error e => (some e, cluster)
  | .ok certificateAuthorities =>
    let cluster := { cluster with CertificateAuthorities := certificateAuthorities }
    match env.newEtcdServer etcdServerExtraSANs with
    | .error e => (some e, cluster)
    | .ok etcdServer =>
      let cluster := { cluster with EtcdServer := etcdServer }
      match env.newKubeAPIServer apiServerExtraSANs with
      | .error e => (some e, cluster)
      | .ok kubeAPIServer => (none, { cluster with APIServer := kubeAPIServer })

/-- The zero `Cluster` record standing for Go's zero value (`nil` pointers
modelled as zero records). -/
def zeroCluster : Cluster where
  Name := []
  CertificateAuthorities :=
    { APIServerClient := ⟨[], []⟩, CertificateSigner := ⟨[], []⟩,
      Kubelet := ⟨[], []⟩, EtcdClient := ⟨[], []⟩, EtcdPeer := ⟨[], []⟩ }
  EtcdServer := { CA := ⟨[], []⟩, TLSCert := [], TLSPrivateKey := [], ExtraSANs := [] }
  APIServer :=
    { CA := ⟨[], []⟩, TLSCert := [], TLSPrivateKey := [],
      ServiceAccountPublicKey := [], ServiceAccountPrivateKey := [], ExtraSANs := [] }
  StorageClientEndpoints := []
  StoragePeerEndpoints := []
  VPNCIDR := ⟨[], []⟩
  VPNPeers := []

/-- `NewCluster` (`cluster.go`): parse the CIDR, generate certificates, then
generate the `control-plane-ingress` peer; any failure returns
`(nil, err)`.  The `net.ParseCIDR` error message is
`invalid CIDR address: <s>` (a `net.ParseError`). -/
def NewCluster (clusterName vpnCIDR : GoStr)
    (etcdServerExtraSANs apiServerExtraSANs : List GoStr) (env : GenEnv) :
    Option Cluster × Option GoStr :=
  match ParseCIDR vpnCIDR with
  | none => (none, some (gostr "invalid CIDR address: " ++ vpnCIDR))
  | some vpnCIDRNet =>
    let res := { zeroCluster with Name := clusterName, VPNCIDR := vpnCIDRNet }
    match res.generateCertificates etcdServerExtraSANs apiServerExtraSANs env with
    | (some e, _) => (none, some e)
    | (none, res) =>
      match res.GenerateVPNPeer (gostr "control-plane-ingress") env.generatePrivateKey with
      | (some e, _) => (none, some e)
      | (none, res) => (some res, none)

/-- Modelled from the spec: `newVPNCIDRFromv1alpha1` (companion file of the
package): the inverse projection of the stringified CIDR, i.e.
`net.ParseCIDR` on the stored string; a `nil` result is the zero `IPNet`. -/
def newVPNCIDRFromv1alpha1 (s : GoStr) : IPNet :=
  (ParseCIDR s).getD ⟨[], []⟩

/-- Modelled from the spec: `newVPNPeersFromv1alpha1` (companion file of the
package): field-for-field import of the exported peer list (section 6). -/
def newVPNPeersFromv1alpha1 (peers : List clusterv1alpha1.VPNPeer) : List VPNPeer :=
  peers.map fun p =>
    { Name := p.Name, Address := p.Address,
      PrivateKey := p.PrivateKey, PublicKey := p.PublicKey }

/-- Modelled from the spec: `VPNPeerList.Export` (companion file of the
package): field-for-field export of the peer list (section 6). -/
def exportVPNPeers (peers : List VPNPeer) : List clusterv1alpha1.VPNPeer :=
  peers.map fun p =>
    { Name := p.Name, Address := p.Address,
      PrivateKey := p.PrivateKey, PublicKey := p.PublicKey }

/-- `NewClusterFromv1alpha1` (`cluster.go`); the Go function never returns a
non-nil error, so the error component is omitted. -/
def NewClusterFromv1alpha1 (cluster : clusterv1alpha1.Cluster) : Cluster where
  Name := cluster.Name
  CertificateAuthorities :=
    { APIServerClient := certificates.NewCertificateFromv1alpha1
        (cluster.Spec.CertificateAuthorities.APIServerClient.Certificate,
         cluster.Spec.CertificateAuthorities.APIServerClient.PrivateKey)
      CertificateSigner := certificates.NewCertificateFromv1alpha1
        (cluster.Spec.CertificateAuthorities.CertificateSigner.Certificate,
         cluster.Spec.CertificateAuthorities.CertificateSigner.PrivateKey)
      Kubelet := certificates.NewCertificateFromv1alpha1
        (cluster.Spec.CertificateAuthorities.Kubelet.Certificate,
         cluster.Spec.CertificateAuthorities.Kubelet.PrivateKey)
      EtcdClient := certificates.NewCertificateFromv1alpha1
        (cluster.Spec.CertificateAuthorities.EtcdClient.Certificate,
         cluster.Spec.CertificateAuthorities.EtcdClient.PrivateKey)
      EtcdPeer := certificates.NewCertificateFromv1alpha1
        (cluster.Spec.CertificateAuthorities.EtcdPeer.Certificate,
         cluster.Spec.CertificateAuthorities.EtcdPeer.PrivateKey) }
  APIServer :=
    { CA := certificates.NewCertificateFromv1alpha1
        (cluster.Spec.APIServer.CA.Certificate, cluster.Spec.APIServer.CA.PrivateKey)
      TLSCert := cluster.Spec.APIServer.TLSCert
      TLSPrivateKey := cluster.Spec.APIServer.TLSPrivateKey
      ServiceAccountPublicKey := cluster.Spec.APIServer.ServiceAccount.PublicKey
      ServiceAccountPrivateKey := cluster.Spec.APIServer.ServiceAccount.PrivateKey
      ExtraSANs := cluster.Spec.APIServer.ExtraSANs }
  EtcdServer :=
    { CA := certificates.NewCertificateFromv1alpha1
        (cluster.Spec.EtcdServer.CA.Certificate, cluster.Spec.EtcdServer.CA.PrivateKey)
      TLSCert := cluster.Spec.EtcdServer.TLSCert
      TLSPrivateKey := cluster.Spec.EtcdServer.TLSPrivateKey
      ExtraSANs := cluster.Spec.EtcdServer.ExtraSANs }
  StorageClientEndpoints := cluster.Status.StorageClientEndpoints
  StoragePeerEndpoints := cluster.Status.StoragePeerEndpoints
  VPNCIDR := newVPNCIDRFromv1alpha1 cluster.Spec.VPNCIDR
  VPNPeers := newVPNPeersFromv1alpha1 cluster.Status.VPNPeers

/-- `Cluster.Export` (`cluster.go`): projection to the versioned type. -/
def Cluster.Export (cluster : Cluster) : clusterv1alpha1.Cluster where
  Name := cluster.Name
  Spec :=
    { CertificateAuthorities :=
        { APIServerClient :=
            ⟨cluster.CertificateAuthorities.APIServerClient.Certificate,
             cluster.CertificateAuthorities.APIServerClient.PrivateKey⟩
          CertificateSigner :=
            ⟨cluster.CertificateAuthorities.CertificateSigner.Certificate,
             cluster.CertificateAuthorities.CertificateSigner.PrivateKey⟩
          Kubelet :=
            ⟨cluster.CertificateAuthorities.Kubelet.Certificate,
             cluster.CertificateAuthorities.Kubelet.PrivateKey⟩
          EtcdClient :=
            ⟨cluster.CertificateAuthorities.EtcdClient.Certificate,
             cluster.CertificateAuthorities.EtcdClient.PrivateKey⟩
          EtcdPeer :=
            ⟨cluster.CertificateAuthorities.EtcdPeer.Certificate,
             cluster.CertificateAuthorities.EtcdPeer.PrivateKey⟩ }
      APIServer :=
        { CA := ⟨cluster.APIServer.CA.Certificate, cluster.APIServer.CA.PrivateKey⟩
          TLSCert := cluster.APIServer.TLSCert
          TLSPrivateKey := cluster.APIServer.TLSPrivateKey
          ServiceAccount :=
            { PublicKey := cluster.APIServer.ServiceAccountPublicKey
              PrivateKey := cluster.APIServer.ServiceAccountPrivateKey }
          ExtraSANs := cluster.APIServer.ExtraSANs }
      EtcdServer :=
        { CA := ⟨cluster.EtcdServer.CA.Certificate, cluster.EtcdServer.CA.PrivateKey⟩
          TLSCert := cluster.EtcdServer.TLSCert
          TLSPrivateKey := cluster.EtcdServer.TLSPrivateKey
          ExtraSANs := cluster.EtcdServer.ExtraSANs }
      VPNCIDR := ipNetString cluster.VPNCIDR }
  Status :=
    { StorageClientEndpoints := cluster.StorageClientEndpoints
      StoragePeerEndpoints := cluster.StoragePeerEndpoints
      VPNPeers := exportVPNPeers cluster.VPNPeers }

/-- Modelled from the spec: the serialization machinery used by
`Cluster.Specs` (the k8s `runtime`/`serializer` packages, external to the
repo).  `addToScheme` is the outcome of `clusterv1alpha1.AddToScheme`, and
`encode` of `runtime.Encode` on the exported object (`.error` carries the
encoder's own message, which `Specs` discards). -/
structure EncodeEnv where
  addToScheme : Option GoStr
  encode : clusterv1alpha1.Cluster → Except GoStr GoStr

/-- `Cluster.Specs` (`cluster.go`): versioned specs of a cluster.  A failing
`AddToScheme` is returned verbatim; a failing encode is replaced by
`could not encode cluster %q` with the cluster name rendered by `goQuote`
(Go's `%q` verb). -/
def Cluster.Specs (cluster : Cluster) (env : EncodeEnv) : GoStr × Option GoStr :=
  match env.addToScheme with
  | some err => ([], some err)
  | none =>
    match env.encode cluster.Export with
    | .ok encodedCluster => (encodedCluster, none)
    | .error _ =>
      ([], some (gostr "could not encode cluster " ++ goQuote cluster.Name))

/-- `Map.Specs` (`cluster.go`): concatenates the member specs, each prefixed
with the `---` document separator; members whose `Specs` fails are skipped.
The iteration order is the model's association-list order. -/
def Map.Specs (clusterMap : Map) (env : EncodeEnv) : GoStr × Option GoStr :=
  let res := clusterMap.foldl
    (fun res entry =>
      match entry.2.Specs env with
      | (_, some _) => res
      | (clusterSpec, none) => res ++ gostr "---\n" ++ clusterSpec)
    []
  (res, none)

/-! ## Derived definitions used by the claims -/

/-- A well-formed IPv4 CIDR as produced by `net.ParseCIDR` on dotted-quad
input: four masked bytes and a canonical four-byte mask. -/
def IsV4CIDR (net : IPNet) : Prop :=
  net.IP.length = 4 ∧ (∀ b ∈ net.IP, b ≤ 255) ∧
  (∃ l, l ≤ 32 ∧ net.Mask = cidrMaskBytes l 4) ∧
  maskIP net.IP net.Mask = net.IP

/-- The network number of an IPv4 VPN CIDR (big-endian value of its four
network bytes). -/
def v4NetworkValue (net : IPNet) : Nat := beBytesToNat net.IP

/-- The address string a generated IPv4 peer stores for address value `x`:
the dotted quad followed by `/32`. -/
def addrStr (x : Nat) : GoStr := ipString (be32 x) ++ 47 :: uitoa 32

/-- Runs a sequence of `GenerateVPNPeer` calls (name plus key-generation
outcome per call), stopping with `none` on the first failure. -/
def runPeerGens : Cluster → List (GoStr × Except GoStr WireguardKey) → Option Cluster
  | c, [] => some c
  | c, (name, key) :: rest =>
    match c.GenerateVPNPeer name key with
    | (none, c1) => runPeerGens c1 rest
    | (some _, _) => none

/-- Concrete generator outcomes used by the witnesses below. -/
def sampleGenEnv : GenEnv where
  newCertificateAuthorities := .ok zeroCluster.CertificateAuthorities
  newEtcdServer := fun sans => .ok { zeroCluster.EtcdServer with ExtraSANs := sans }
  newKubeAPIServer := fun sans => .ok { zeroCluster.APIServer with ExtraSANs := sans }
  generatePrivateKey := .ok ⟨gostr "wg-private-key", gostr "wg-public-key"⟩

/-- The cluster built by `NewCluster "demo" "10.0.0.0/16"` under
`sampleGenEnv`. -/
def demoCluster : Cluster :=
  ((NewCluster (gostr "demo") (gostr "10.0.0.0/16") [] [] sampleGenEnv).1).getD zeroCluster

/-- The cluster built by `NewCluster "demo" "10.0.0.0/31"` under
`sampleGenEnv`. -/
def tinyCluster : Cluster :=
  ((NewCluster (gostr "demo") (gostr "10.0.0.0/31") [] [] sampleGenEnv).1).getD zeroCluster

/-- The cluster built by `NewCluster "demo" "::ffff:102:300/120"` under
`sampleGenEnv` (an IPv4-mapped IPv6 VPN CIDR). -/
def mappedCluster : Cluster :=
  ((NewCluster (gostr "demo") (gostr "::ffff:102:300/120") [] [] sampleGenEnv).1).getD
    zeroCluster

/-- A serializer model whose encoder always fails. -/
def failingEncodeEnv : EncodeEnv where
  addToScheme := none
  encode := fun _ => .error (gostr "encoder failure")

/-- A serializer model whose scheme registration fails with message `x`. -/
def badSchemeEnv : EncodeEnv where
  addToScheme := some (gostr "x")
  encode := fun _ => .ok []

/-! ## Rendering and parsing lemmas -/

lemma uitoaFuel_congr : ∀ fuel fuel' v, v ≤ fuel → v ≤ fuel' →
    uitoaFuel fuel v = uitoaFuel fuel' v := by
  intro fuel
  induction fuel with
  | zero =>
    intro fuel' v h _h'
    have hv : v = 0 := by omega
    subst hv
    cases fuel' <;> simp [uitoaFuel]
  | succ fuel IH =>
    intro fuel' v _h h'
    by_cases hv : v < 10
    · cases fuel' with
      | zero =>
        have hz : v = 0 := by omega
        subst hz
        simp [uitoaFuel]
      | succ fuel' => simp [uitoaFuel, hv]
    · cases fuel' with
      | zero => omega
      | succ fuel' =>
        simp only [uitoaFuel, if_neg hv]
        have hd : v / 10 < v := Nat.div_lt_self (by omega) (by omega)
        rw [IH fuel' (v / 10) (by omega) (by omega)]

lemma uitoa_unfold (v : Nat) :
    uitoa v = if v < 10 then [48 + v] else uitoa (v / 10) ++ [48 + v % 10] := by
  unfold uitoa
  by_cases hv : v < 10
  · rw [if_pos hv]
    cases v with
    | zero => rfl
    | succ k => simp [uitoaFuel, hv]
  · rw [if_neg hv]
    obtain ⟨k, rfl⟩ : ∃ k, v = k + 1 := ⟨v - 1, by omega⟩
    simp only [uitoaFuel, if_neg hv]
    have hd : (k + 1) / 10 < k + 1 := Nat.div_lt_self (by omega) (by omega)
    rw [uitoaFuel_congr k ((k + 1) / 10) ((k + 1) / 10) (by omega) (by omega)]

lemma beBytesFuel_congr : ∀ fuel fuel' v, v ≤ fuel → v ≤ fuel' →
    beBytesFuel fuel v = beBytesFuel fuel' v := by
  intro fuel
  induction fuel with
  | zero =>
    intro fuel' v h _h'
    have hv : v = 0 := by omega
    subst hv
    cases fuel' <;> simp [beBytesFuel]
  | succ fuel IH =>
    intro fuel' v _h h'
    by_cases hv : v = 0
    · subst hv
      cases fuel' <;> simp [beBytesFuel]
    · cases fuel' with
      | zero => omega
      | succ fuel' =>
        simp only [beBytesFuel, if_neg hv]
        have hd : v / 256 < v := Nat.div_lt_self (by omega) (by omega)
        rw [IH fuel' (v / 256) (by omega) (by omega)]

lemma beBytes_unfold (v : Nat) :
    beBytes v = if v = 0 then [] else beBytes (v / 256) ++ [v % 256] := by
  unfold beBytes
  by_cases hv : v = 0
  · subst hv; rfl
  · rw [if_neg hv]
    obtain ⟨k, rfl⟩ : ∃ k, v = k + 1 := ⟨v - 1, by omega⟩
    simp only [beBytesFuel, if_neg hv]
    have hd : (k + 1) / 256 < k + 1 := Nat.div_lt_self (by omega) (by omega)
    rw [beBytesFuel_congr k ((k + 1) / 256) ((k + 1) / 256) (by omega) (by omega)]

lemma uitoa_ne_nil (v : Nat) : uitoa v ≠ [] := by
  rw [uitoa_unfold]
  split <;> simp

lemma uitoa_length_pos (v : Nat) : 0 < (uitoa v).length := by
  cases h : uitoa v with
  | nil => exact absurd h (uitoa_ne_nil v)
  | cons a l => simp

lemma uitoa_mem_digit (v : Nat) : ∀ c ∈ uitoa v, 48 ≤ c ∧ c ≤ 57 := by
  induction v using Nat.strong_induction_on with
  | _ v IH =>
    rw [uitoa_unfold]
    split
    · next h => intro c hc; simp only [List.mem_singleton] at hc; omega
    · next h =>
      intro c hc
      rcases List.mem_append.mp hc with hc | hc
      · exact IH (v / 10) (Nat.div_lt_self (by omega) (by omega)) c hc
      · simp only [List.mem_singleton] at hc
        have : v % 10 < 10 := Nat.mod_lt _ (by omega)
        omega

lemma dtoiLoop_uitoa : ∀ v rest n i,
    n * 10 ^ (uitoa v).length + v < 0xFFFFFF →
    dtoiLoop (uitoa v ++ rest) n i =
      dtoiLoop rest (n * 10 ^ (uitoa v).length + v) (i + (uitoa v).length) := by
  intro v
  induction v using Nat.strong_induction_on with
  | _ v IH =>
    intro rest n i hb
    by_cases h : v < 10
    · have he : uitoa v = [48 + v] := by rw [uitoa_unfold]; simp [h]
      rw [he] at hb ⊢
      simp only [List.length_cons, List.length_nil, pow_one, zero_add] at hb ⊢
      simp only [List.cons_append, List.nil_append, dtoiLoop]
      rw [if_pos (by omega)]
      have h48 : 48 + v - 48 = v := by omega
      simp only [h48]
      rw [if_neg (by omega)]
      rfl
    · have he : uitoa v = uitoa (v / 10) ++ [48 + v % 10] := by
        rw [uitoa_unfold]; simp [h]
      rw [he] at hb ⊢
      simp only [List.length_append, List.length_cons, List.length_nil, zero_add] at hb ⊢
      have hsub : v / 10 < v := Nat.div_lt_self (by omega) (by omega)
      have hb1 : n * 10 ^ (uitoa (v / 10)).length + v / 10 < 0xFFFFFF := by
        have h2 : n * 10 ^ (uitoa (v / 10)).length * 10 =
            n * 10 ^ ((uitoa (v / 10)).length + 1) := by
          rw [pow_succ]; ring
        have hdiv : v / 10 ≤ v := Nat.div_le_self v 10
        omega
      rw [List.append_assoc, List.cons_append, List.nil_append,
        IH (v / 10) hsub _ n i hb1]
      simp only [dtoiLoop]
      rw [if_pos (by have : v % 10 < 10 := Nat.mod_lt _ (by omega); omega)]
      have h48 : 48 + v % 10 - 48 = v % 10 := by omega
      simp only [h48]
      have hid : (n * 10 ^ (uitoa (v / 10)).length + v / 10) * 10 + v % 10 =
          n * 10 ^ ((uitoa (v / 10)).length + 1) + v := by
        have h1 : (n * 10 ^ (uitoa (v / 10)).length + v / 10) * 10 =
            n * 10 ^ ((uitoa (v / 10)).length + 1) + v / 10 * 10 := by
          rw [pow_succ]; ring
        omega
      rw [hid, if_neg (by omega), Nat.add_assoc]

lemma dtoi_uitoa (v : Nat) (rest : GoStr) (hv : v < 0xFFFFFF)
    (hrest : ∀ c, rest.head? = some c → ¬(48 ≤ c ∧ c ≤ 57)) :
    dtoi (uitoa v ++ rest) = (v, (uitoa v).length, true) := by
  unfold dtoi
  rw [dtoiLoop_uitoa v rest 0 0 (by simpa using hv)]
  simp only [zero_mul, zero_add]
  have hL : (uitoa v).length ≠ 0 := by have := uitoa_length_pos v; omega
  cases rest with
  | nil => simp [dtoiLoop, hL]
  | cons c r =>
    have := hrest c rfl
    simp only [dtoiLoop]
    rw [if_neg this, if_neg hL]

lemma append_uitoa_ne_nil (v : Nat) (rest : GoStr) : (uitoa v ++ rest).isEmpty = false := by
  cases h : uitoa v with
  | nil => exact absurd h (uitoa_ne_nil v)
  | cons c t => simp [h]

lemma parseIPv4Loop_first (fl : Nat) (v : Nat) (rest : GoStr) (hv : v ≤ 255)
    (hrest : ∀ c, rest.head? = some c → ¬(48 ≤ c ∧ c ≤ 57)) :
    parseIPv4Loop (fl + 1) (uitoa v ++ rest) [] = parseIPv4Loop fl rest [v] := by
  have hd := dtoi_uitoa v rest (by omega) hrest
  simp only [parseIPv4Loop, append_uitoa_ne_nil, Bool.false_eq_true, if_false,
    List.isEmpty_nil, if_true, hd]
  rw [if_neg (by simp; omega)]
  rw [List.drop_left]

lemma parseIPv4Loop_next (fl : Nat) (v : Nat) (rest : GoStr) (a : Nat) (acc : List Nat)
    (hv : v ≤ 255)
    (hrest : ∀ c, rest.head? = some c → ¬(48 ≤ c ∧ c ≤ 57)) :
    parseIPv4Loop (fl + 1) (46 :: (uitoa v ++ rest)) (a :: acc) =
      parseIPv4Loop fl rest (v :: a :: acc) := by
  have hd := dtoi_uitoa v rest (by omega) hrest
  simp only [parseIPv4Loop, List.isEmpty_cons, Bool.false_eq_true, if_false, hd]
  rw [if_neg (by simp; omega)]
  rw [List.drop_left]

lemma parseIPv4_dotted (a b c d : Nat) (ha : a ≤ 255) (hb : b ≤ 255)
    (hc : c ≤ 255) (hd : d ≤ 255) :
    parseIPv4 (uitoa a ++ 46 :: (uitoa b ++ 46 :: (uitoa c ++ 46 :: uitoa d))) =
      IPv4 a b c d := by
  have hdot : ∀ (r : GoStr) (c : Nat), (46 :: r : GoStr).head? = some c →
      ¬(48 ≤ c ∧ c ≤ 57) := by
    intro r c h
    simp only [List.head?_cons, Option.some.injEq] at h
    omega
  unfold parseIPv4
  rw [show (4 : Nat) = 3 + 1 from rfl, parseIPv4Loop_first 3 a _ ha (hdot _),
    show (3 : Nat) = 2 + 1 from rfl, parseIPv4Loop_next 2 b _ a [] hb (hdot _),
    show (2 : Nat) = 1 + 1 from rfl, parseIPv4Loop_next 1 c _ b [a] hc (hdot _),
    show (1 : Nat) = 0 + 1 from rfl,
    show (46 :: uitoa d : GoStr) = 46 :: (uitoa d ++ []) by rw [List.append_nil],
    parseIPv4Loop_next 0 d [] c [b, a] hd (by intro c h; simp at h)]
  simp [parseIPv4Loop]

lemma parseIPv4Loop_bytes : ∀ fl s acc out, (∀ x ∈ acc, x ≤ 255) →
    parseIPv4Loop fl s acc = some out → ∀ x ∈ out, x ≤ 255 := by
  intro fl
  induction fl with
  | zero =>
    intro s acc out hacc h
    simp only [parseIPv4Loop] at h
    split at h
    · intro x hx
      cases h
      exact hacc x (List.mem_reverse.mp hx)
    · cases h
  | succ fl IH =>
    intro s acc out hacc h
    simp only [parseIPv4Loop] at h
    split at h
    · cases h
    · split at h
      · cases h
      · split at h
        · cases h
        · next hok =>
          refine IH _ _ _ ?_ h
          intro x hx
          rcases List.mem_cons.mp hx with hx | hx
          · subst hx
            push_neg at hok
            omega
          · exact hacc x hx

lemma To4_IPv4 (a b c d : Nat) : To4 (IPv4 a b c d) = [a, b, c, d] := by
  simp [To4, IPv4, v4InV6Head]

lemma ipString_four (a b c d : Nat) :
    ipString [a, b, c, d] =
      uitoa a ++ 46 :: (uitoa b ++ 46 :: (uitoa c ++ 46 :: uitoa d)) := by
  simp [ipString, To4]

/-! ## Byte-value and mask lemmas -/

lemma beBytes_step (a b : Nat) (hb : b < 256) (hpos : 0 < a) :
    beBytes (a * 256 + b) = beBytes a ++ [b] := by
  have h0 : ¬(a * 256 + b = 0) := by omega
  rw [beBytes_unfold (a * 256 + b), if_neg h0]
  have h1 : (a * 256 + b) / 256 = a := by omega
  have h2 : (a * 256 + b) % 256 = b := by omega
  rw [h1, h2]

lemma beBytes_v4 (x : Nat) (hx : x < 2 ^ 32) :
    beBytes (0xFFFF * 2 ^ 32 + x) = 255 :: 255 :: be32 x := by
  have e : 0xFFFF * 2 ^ 32 + x =
      (((0xFFFF * 256 + x / 2 ^ 24 % 256) * 256 + x / 2 ^ 16 % 256) * 256
        + x / 2 ^ 8 % 256) * 256 + x % 256 := by omega
  rw [e]
  rw [beBytes_step _ _ (by omega) (by omega)]
  rw [beBytes_step _ _ (by omega) (by omega)]
  rw [beBytes_step _ _ (by omega) (by omega)]
  rw [beBytes_step _ _ (by omega) (by omega)]
  have h16 : beBytes 0xFFFF = [255, 255] := by decide
  rw [h16]
  simp [be32]

lemma foldl_be_shift (l : GoStr) : ∀ a, l.foldl (fun acc x => acc * 256 + x) a =
    a * 256 ^ l.length + l.foldl (fun acc x => acc * 256 + x) 0 := by
  induction l with
  | nil => intro a; simp
  | cons x t IH =>
    intro a
    simp only [List.foldl_cons, List.length_cons]
    rw [IH (a * 256 + x), IH (0 * 256 + x)]
    ring

lemma beBytesToNat_cons (x : Nat) (t : GoStr) :
    beBytesToNat (x :: t) = x * 256 ^ t.length + beBytesToNat t := by
  unfold beBytesToNat
  simp only [List.foldl_cons]
  rw [foldl_be_shift t (0 * 256 + x)]
  ring_nf

lemma beBytesToNat_append (l1 l2 : GoStr) :
    beBytesToNat (l1 ++ l2) = beBytesToNat l1 * 256 ^ l2.length + beBytesToNat l2 := by
  unfold beBytesToNat
  rw [List.foldl_append]
  exact foldl_be_shift l2 _

lemma beBytesToNat_lt (l : GoStr) (h : ∀ x ∈ l, x ≤ 255) :
    beBytesToNat l < 256 ^ l.length := by
  induction l with
  | nil => simp [beBytesToNat]
  | cons x t IH =>
    rw [beBytesToNat_cons]
    have hx : x ≤ 255 := h x (by simp)
    have ht := IH (fun y hy => h y (by simp [hy]))
    have hmul : x * 256 ^ t.length ≤ 255 * 256 ^ t.length :=
      Nat.mul_le_mul_right _ hx
    simp only [List.length_cons, pow_succ]
    omega

lemma beBytesToNat_To16_four (ip : GoStr) (h : ip.length = 4) :
    beBytesToNat (To16 ip) = 0xFFFF * 2 ^ 32 + beBytesToNat ip := by
  unfold To16
  rw [if_pos h, beBytesToNat_append]
  have hv : beBytesToNat v4InV6Head = 0xFFFF := by decide
  rw [hv, h]
  norm_num

lemma beBytesToNat_be32 (x : Nat) (hx : x < 2 ^ 32) : beBytesToNat (be32 x) = x := by
  simp only [be32, beBytesToNat, List.foldl]
  omega

lemma be32_mem_le (x : Nat) : ∀ b ∈ be32 x, b ≤ 255 := by
  intro b hb
  simp only [be32, List.mem_cons, List.not_mem_nil, or_false] at hb
  rcases hb with h | h | h | h <;> subst h <;> omega

lemma cidrMaskBytes_length : ∀ l ones, (cidrMaskBytes ones l).length = l := by
  intro l
  induction l with
  | zero => intro ones; rfl
  | succ l IH =>
    intro ones
    unfold cidrMaskBytes
    split <;> simp [IH]

lemma simpleMaskLength_cidr4 : ∀ l < 33, simpleMaskLength (cidrMaskBytes l 4) = some l := by
  decide

lemma land_land_self (a b : Nat) : (a &&& b) &&& b = a &&& b := by
  apply Nat.eq_of_testBit_eq
  intro i
  simp [Nat.testBit_land, Bool.and_assoc]

lemma zipWith_land_idem (l : GoStr) : ∀ m : GoStr,
    List.zipWith (fun a b => a &&& b) (List.zipWith (fun a b => a &&& b) l m) m =
      List.zipWith (fun a b => a &&& b) l m := by
  induction l with
  | nil => intro m; simp
  | cons x t IH =>
    intro m
    cases m with
    | nil => simp
    | cons y u => simp [land_land_self, IH]

lemma maskIP_four (ip m : GoStr) (hip : ip.length = 4) (hm : m.length = 4) :
    maskIP ip m = List.zipWith (fun a b => a &&& b) ip m := by
  simp [maskIP, hip, hm]

lemma maskIP_IPv4 (a b c d : Nat) (m : GoStr) (hm : m.length = 4) :
    maskIP (IPv4 a b c d) m = List.zipWith (fun x y => x &&& y) [a, b, c, d] m := by
  simp [maskIP, IPv4, v4InV6Head, hm]

lemma networkNumberAndMask_v4 (net : IPNet) (hip : net.IP.length = 4)
    (hm : net.Mask.length = 4) :
    networkNumberAndMask net = (net.IP, net.Mask) := by
  have h4 : To4 net.IP = net.IP := by simp [To4, hip]
  have hne : ¬(net.IP = []) := by
    intro h
    rw [h] at hip
    simp at hip
  simp [networkNumberAndMask, h4, hne, hip, hm]

/-! ## Parser shape lemmas -/

lemma parseIPv4_shape (s : GoStr) (h : parseIPv4 s ≠ []) :
    ∃ a b c d, parseIPv4 s = IPv4 a b c d ∧
      a ≤ 255 ∧ b ≤ 255 ∧ c ≤ 255 ∧ d ≤ 255 := by
  unfold parseIPv4 at h ⊢
  rcases hl : parseIPv4Loop 4 s [] with _ | out
  · rw [hl] at h
    simp at h
  · rw [hl] at h
    have hb := parseIPv4Loop_bytes 4 s [] out (by simp) hl
    match out with
    | [] => simp at h
    | [a] => simp at h
    | [a, b] => simp at h
    | [a, b, c] => simp at h
    | [a, b, c, d] =>
      refine ⟨a, b, c, d, rfl, ?_, ?_, ?_, ?_⟩ <;> apply hb <;> simp
    | a :: b :: c :: d :: e :: t => simp at h

lemma parseIPv6Loop_inv : ∀ fuel s acc ell r,
    acc.length % 2 = 0 → acc.length ≤ 16 →
    (∀ e, ell = some e → e ≤ acc.length) →
    parseIPv6Loop fuel s acc ell = some r →
    r.2.1.length % 2 = 0 ∧ r.2.1.length ≤ 16 ∧
      (∀ e, r.2.2 = some e → e ≤ r.2.1.length) := by
  intro fuel
  induction fuel with
  | zero =>
    intro s acc ell r h2 h16 hell h
    simp only [parseIPv6Loop] at h
    cases h
    exact ⟨h2, h16, hell⟩
  | succ fuel IH =>
    intro s acc ell r h2 h16 hell h
    simp only [parseIPv6Loop] at h
    split at h
    · cases h; exact ⟨h2, h16, hell⟩
    · next hlt =>
      have hlt16 : acc.length < 16 := by omega
      split at h
      · cases h
      · split at h
        · -- embedded IPv4 terminates the address
          split at h
          · cases h
          · next hguard =>
            split at h
            · cases h
            · next hip4 =>
              cases h
              have hip4len : (parseIPv4 s).length = 16 := by
                obtain ⟨a, b, c, d, he, -⟩ := parseIPv4_shape s hip4
                rw [he]
                simp [IPv4, v4InV6Head]
              refine ⟨?_, ?_, ?_⟩ <;>
                simp only [List.length_append, List.length_drop, hip4len]
              · omega
              · omega
              · intro e he
                have := hell e he
                omega
        · -- a 16-bit group was appended
          split at h
          · cases h
            refine ⟨by simp; omega, by simp; omega, ?_⟩
            intro e he
            have := hell e he
            simp only [List.length_append, List.length_cons, List.length_nil]
            omega
          · split at h
            · cases h
            · split at h
              · split at h
                · cases h
                · split at h
                  · cases h
                    refine ⟨by simp; omega, by simp; omega, ?_⟩
                    intro e he
                    cases he
                    simp
                  · refine IH _ _ _ _ (by simp; omega) (by simp; omega) ?_ h
                    intro e he
                    cases he
                    simp
              · refine IH _ _ _ _ (by simp; omega) (by simp; omega) ?_ h
                intro e he
                have := hell e he
                simp only [List.length_append, List.length_cons, List.length_nil]
                omega

lemma parseIPv6Post_shape (r : Option (GoStr × List Nat × Option Nat))
    (hinv : ∀ rest acc ell, r = some (rest, acc, ell) →
      acc.length ≤ 16 ∧ (∀ e, ell = some e → e ≤ acc.length)) :
    parseIPv6Post r = [] ∨ (parseIPv6Post r).length = 16 := by
  cases r with
  | none => left; rfl
  | some v =>
    obtain ⟨rest, acc, ell⟩ := v
    obtain ⟨h16, hell⟩ := hinv rest acc ell rfl
    simp only [parseIPv6Post]
    split
    · left; rfl
    · split
      · next hshort =>
        cases ell with
        | none => left; rfl
        | some e =>
          right
          have he := hell e rfl
          simp only [List.length_append, List.length_take, List.length_drop,
            List.length_replicate]
          omega
      · next hlong =>
        cases ell with
        | some e => left; rfl
        | none =>
          right
          show acc.length = 16
          omega

lemma parseIPv6_shape (s : GoStr) : parseIPv6 s = [] ∨ (parseIPv6 s).length = 16 := by
  unfold parseIPv6
  split
  · split
    · right; simp
    · apply parseIPv6Post_shape
      intro rest acc ell heq
      have := parseIPv6Loop_inv 8 (s.drop 2) [] (some 0) (rest, acc, ell)
        (by simp) (by simp) (by intro e he; cases he; simp) heq
      exact ⟨this.2.1, this.2.2⟩
  · apply parseIPv6Post_shape
    intro rest acc ell heq
    have := parseIPv6Loop_inv 8 s [] none (rest, acc, ell)
      (by simp) (by simp) (by intro e he; cases he) heq
    exact ⟨this.2.1, this.2.2⟩

lemma parseIPv6Zone_shape (s : GoStr) :
    parseIPv6Zone s = [] ∨ (parseIPv6Zone s).length = 16 := by
  unfold parseIPv6Zone
  rcases hfi : s.reverse.findIdx? (· = 37) with _ | ri <;> rw [hfi]
  · exact parseIPv6_shape _
  · show (if s.length - 1 - ri > 0
        then parseIPv6 (List.take (s.length - 1 - ri) s)
        else parseIPv6 s) = [] ∨
      (if s.length - 1 - ri > 0
        then parseIPv6 (List.take (s.length - 1 - ri) s)
        else parseIPv6 s).length = 16
    split
    · exact parseIPv6_shape _
    · exact parseIPv6_shape _

lemma maskIP_sixteen (ip m : GoStr) (hip : ip.length = 16) (hm : m.length = 16) :
    maskIP ip m = List.zipWith (fun a b => a &&& b) ip m := by
  simp [maskIP, hip, hm]

lemma parseCIDRBody_v4 (addr maskStr : GoStr) (net : IPNet)
    (h : parseCIDRBody addr maskStr = some net) (hv4 : parseIPv4 addr ≠ []) :
    ∃ a b c d l, a ≤ 255 ∧ b ≤ 255 ∧ c ≤ 255 ∧ d ≤ 255 ∧ l ≤ 32 ∧
      parseIPv4 addr = IPv4 a b c d ∧
      net = ⟨maskIP (IPv4 a b c d) (cidrMaskBytes l 4), cidrMaskBytes l 4⟩ := by
  obtain ⟨a, b, c, d, he, ha, hb, hc, hd⟩ := parseIPv4_shape addr hv4
  simp only [parseCIDRBody, hv4, ne_eq, not_false_iff, if_true] at h
  split at h
  · cases h
  · next hguard =>
    push_neg at hguard
    rw [Option.some.injEq] at h
    refine ⟨a, b, c, d, (dtoi maskStr).1, ha, hb, hc, hd, ?_, he, ?_⟩
    · have := hguard.2.2.2
      omega
    · rw [← h, he]
      have hm : CIDRMask (dtoi maskStr).1 (8 * 4) = cidrMaskBytes (dtoi maskStr).1 4 := by
        unfold CIDRMask
        rw [if_pos ⟨Or.inl rfl, by have := hguard.2.2.2; omega⟩]
      rw [hm]

lemma parseCIDRBody_not_v4 (addr maskStr : GoStr) (net : IPNet)
    (h : parseCIDRBody addr maskStr = some net) (hv4 : parseIPv4 addr = []) :
    net.IP.length = 16 := by
  simp only [parseCIDRBody, hv4, ne_eq, if_neg, not_true_eq_false, if_false] at h
  split at h
  · cases h
  · next hguard =>
    push_neg at hguard
    rw [Option.some.injEq] at h
    have hne : parseIPv6Zone addr ≠ [] := hguard.1
    have h16 : (parseIPv6Zone addr).length = 16 := by
      rcases parseIPv6Zone_shape addr with hz | hz
      · exact absurd hz hne
      · exact hz
    have hmlen : (CIDRMask (dtoi maskStr).1 (8 * 16)).length = 16 := by
      unfold CIDRMask
      rw [if_pos ⟨Or.inr rfl, by have := hguard.2.2.2; omega⟩]
      exact cidrMaskBytes_length 16 _
    rw [← h]
    show (maskIP (parseIPv6Zone addr) (CIDRMask (dtoi maskStr).1 (8 * 16))).length = 16
    rw [maskIP_sixteen _ _ h16 hmlen]
    simp [h16, hmlen]

lemma length_four_shape (xs : GoStr) (h : xs.length = 4) :
    ∃ a b c d, xs = [a, b, c, d] := by
  rcases xs with _ | ⟨a, _ | ⟨b, _ | ⟨c, _ | ⟨d, _ | ⟨e, t⟩⟩⟩⟩⟩ <;> simp at h
  exact ⟨a, b, c, d, rfl⟩

lemma ParseCIDR_four (s : GoStr) (net : IPNet) (h : ParseCIDR s = some net)
    (h4 : net.IP.length = 4) : IsV4CIDR net := by
  unfold ParseCIDR at h
  rcases hfi : s.findIdx? (· = 47) with _ | i
  · rw [hfi] at h; cases h
  · rw [hfi] at h
    by_cases hv4 : parseIPv4 (s.take i) = []
    · have := parseCIDRBody_not_v4 _ _ _ h hv4
      omega
    · obtain ⟨a, b, c, d, l, ha, hb, hc, hd, hl, _he, hnet⟩ :=
        parseCIDRBody_v4 _ _ _ h hv4
      subst hnet
      have hmlen : (cidrMaskBytes l 4).length = 4 := cidrMaskBytes_length 4 l
      obtain ⟨m0, m1, m2, m3, hmeq⟩ := length_four_shape _ hmlen
      refine ⟨?_, ?_, ⟨l, hl, rfl⟩, ?_⟩
      · show (maskIP (IPv4 a b c d) (cidrMaskBytes l 4)).length = 4
        rw [maskIP_IPv4 a b c d _ hmlen]
        simp [hmlen]
      · show ∀ x ∈ maskIP (IPv4 a b c d) (cidrMaskBytes l 4), x ≤ 255
        rw [maskIP_IPv4 a b c d _ hmlen, hmeq]
        intro x hx
        simp only [List.zipWith_cons_cons, List.zipWith_nil_right,
          List.zipWith, List.mem_cons, List.not_mem_nil, or_false] at hx
        have l0 : a &&& m0 ≤ a := Nat.and_le_left ..
        have l1 : b &&& m1 ≤ b := Nat.and_le_left ..
        have l2 : c &&& m2 ≤ c := Nat.and_le_left ..
        have l3 : d &&& m3 ≤ d := Nat.and_le_left ..
        rcases hx with h | h | h | h <;> omega
      · show maskIP (maskIP (IPv4 a b c d) (cidrMaskBytes l 4)) (cidrMaskBytes l 4) =
          maskIP (IPv4 a b c d) (cidrMaskBytes l 4)
        rw [maskIP_IPv4 a b c d _ hmlen]
        rw [maskIP_four _ _ (by simp [hmlen]) hmlen]
        exact zipWith_land_idem _ _

lemma ipNetString_v4 (net : IPNet) (l : Nat) (hl : l ≤ 32)
    (hm : net.Mask = cidrMaskBytes l 4) (hip : net.IP.length = 4) :
    ipNetString net = ipString net.IP ++ 47 :: uitoa l := by
  have hmlen : net.Mask.length = 4 := by rw [hm]; exact cidrMaskBytes_length 4 l
  unfold ipNetString
  simp only [networkNumberAndMask_v4 net hip hmlen]
  rw [if_neg (by
    push_neg
    constructor
    · exact List.ne_nil_of_length_pos (by omega)
    · exact List.ne_nil_of_length_pos (by omega))]
  rw [hm, simpleMaskLength_cidr4 l (by omega)]

lemma findIdx?_skip (p : Nat → Bool) (xs ys : List Nat) (i : Nat)
    (h : ∀ x ∈ xs, p x = false) :
    List.findIdx? p (xs ++ ys) i = List.findIdx? p ys (i + xs.length) := by
  induction xs generalizing i with
  | nil => simp
  | cons x t IH =>
    simp only [List.cons_append, List.findIdx?]
    rw [h x (by simp)]
    simp only [Bool.false_eq_true, if_false]
    rw [show t.append ys = t ++ ys from rfl, IH (i + 1) (fun y hy => h y (by simp [hy]))]
    congr 1
    simp only [List.length_cons]
    omega

lemma dotted_mem (a b c d : Nat) :
    ∀ x ∈ uitoa a ++ 46 :: (uitoa b ++ 46 :: (uitoa c ++ 46 :: uitoa d)),
      x = 46 ∨ (48 ≤ x ∧ x ≤ 57) := by
  intro x hx
  simp only [List.mem_append, List.mem_cons] at hx
  rcases hx with h | h | h | h | h | h | h
  · exact Or.inr (uitoa_mem_digit a x h)
  · exact Or.inl h
  · exact Or.inr (uitoa_mem_digit b x h)
  · exact Or.inl h
  · exact Or.inr (uitoa_mem_digit c x h)
  · exact Or.inl h
  · exact Or.inr (uitoa_mem_digit d x h)

lemma ParseCIDR_reparse (net : IPNet) (h : IsV4CIDR net) :
    ParseCIDR (ipNetString net) = some net := by
  obtain ⟨hlen, hbytes, ⟨l, hl, hm⟩, hidem⟩ := h
  obtain ⟨a, b, c, d, hip⟩ := length_four_shape net.IP hlen
  have ha : a ≤ 255 := hbytes a (by rw [hip]; simp)
  have hb : b ≤ 255 := hbytes b (by rw [hip]; simp)
  have hc : c ≤ 255 := hbytes c (by rw [hip]; simp)
  have hd : d ≤ 255 := hbytes d (by rw [hip]; simp)
  have hns : ipNetString net =
      (uitoa a ++ 46 :: (uitoa b ++ 46 :: (uitoa c ++ 46 :: uitoa d))) ++ 47 :: uitoa l := by
    rw [ipNetString_v4 net l hl hm hlen, hip, ipString_four]
  rw [hns]
  unfold ParseCIDR
  have hfi : List.findIdx? (fun x => decide (x = 47))
      ((uitoa a ++ 46 :: (uitoa b ++ 46 :: (uitoa c ++ 46 :: uitoa d))) ++ 47 :: uitoa l) 0 =
      some (uitoa a ++ 46 :: (uitoa b ++ 46 :: (uitoa c ++ 46 :: uitoa d))).length := by
    rw [findIdx?_skip _ _ _ 0 (by
      intro x hx
      rcases dotted_mem a b c d x hx with h | h
      · subst h; rfl
      · simp only [decide_eq_false_iff_not]
        omega)]
    simp [List.findIdx?]
  rw [hfi]
  show parseCIDRBody
      (((uitoa a ++ 46 :: (uitoa b ++ 46 :: (uitoa c ++ 46 :: uitoa d))) ++ 47 :: uitoa l).take
        (uitoa a ++ 46 :: (uitoa b ++ 46 :: (uitoa c ++ 46 :: uitoa d))).length)
      (((uitoa a ++ 46 :: (uitoa b ++ 46 :: (uitoa c ++ 46 :: uitoa d))) ++ 47 :: uitoa l).drop
        ((uitoa a ++ 46 :: (uitoa b ++ 46 :: (uitoa c ++ 46 :: uitoa d))).length + 1)) =
    some net
  rw [List.take_left, List.drop_append]
  simp only [List.drop_succ_cons, List.drop_zero]
  have hpv4 : parseIPv4 (uitoa a ++ 46 :: (uitoa b ++ 46 :: (uitoa c ++ 46 :: uitoa d))) =
      IPv4 a b c d := parseIPv4_dotted a b c d ha hb hc hd
  have hdt : dtoi (uitoa l) = (l, (uitoa l).length, true) := by
    have := dtoi_uitoa l [] (by omega) (by intro c hc0; simp at hc0)
    simpa using this
  have hne : IPv4 a b c d ≠ [] := by simp [IPv4, v4InV6Head]
  simp only [parseCIDRBody, hpv4, hdt, ne_eq, hne, not_false_eq_true, if_true,
    Bool.true_eq_false, eq_self_iff_true, not_true, false_or, or_false]
  rw [if_neg (by omega)]
  have hcm : CIDRMask l (8 * 4) = cidrMaskBytes l 4 := by
    unfold CIDRMask
    rw [if_pos ⟨Or.inl rfl, by omega⟩]
  rw [hcm]
  have hmlen : (cidrMaskBytes l 4).length = 4 := cidrMaskBytes_length 4 l
  rw [maskIP_IPv4 a b c d _ hmlen]
  have hzip : List.zipWith (fun x y => x &&& y) [a, b, c, d] (cidrMaskBytes l 4) = net.IP := by
    have := hidem
    rw [hip, hm] at this
    rw [maskIP_four _ _ (by simp) hmlen] at this
    rw [this, ← hip]
  rw [hzip, ← hm]

/-! ## `requestVPNIP` characterization on IPv4 CIDRs -/

lemma beBytes_length_le (k : Nat) : ∀ v, v < 256 ^ k → (beBytes v).length ≤ k := by
  induction k with
  | zero =>
    intro v h
    have hv : v = 0 := by simpa using h
    subst hv
    simp [beBytes, beBytesFuel]
  | succ k IH =>
    intro v h
    rw [beBytes_unfold]
    split
    · simp
    · next hv =>
      rw [List.length_append]
      have hd : v / 256 < 256 ^ k := by
        rw [Nat.div_lt_iff_lt_mul (by omega)]
        calc v < 256 ^ (k + 1) := h
        _ = 256 ^ k * 256 := by ring
      have := IH _ hd
      simp only [List.length_cons, List.length_nil]
      omega

lemma beBytes_length_ge (k : Nat) : ∀ v, 256 ^ k ≤ v → k + 1 ≤ (beBytes v).length := by
  induction k with
  | zero =>
    intro v h
    rw [beBytes_unfold, if_neg (by simp at h; omega)]
    simp
  | succ k IH =>
    intro v h
    have hp : 0 < 256 ^ (k + 1) := Nat.pos_pow_of_pos _ (by omega)
    rw [beBytes_unfold, if_neg (by omega), List.length_append]
    have hd : 256 ^ k ≤ v / 256 := by
      rw [Nat.le_div_iff_mul_le (by omega)]
      calc 256 ^ k * 256 = 256 ^ (k + 1) := by ring
      _ ≤ v := h
    have := IH _ hd
    simp only [List.length_cons, List.length_nil]
    omega

lemma To4_nil_of_length (ip : GoStr) (h4 : ip.length ≠ 4) (h16 : ip.length ≠ 16) :
    To4 ip = [] := by
  unfold To4
  rw [if_neg h4, if_neg (by intro hc; exact h16 hc.1)]

lemma vpnSlice_lt (c : Cluster) (hlen : c.VPNCIDR.IP.length = 4)
    (hlt : beBytesToNat c.VPNCIDR.IP + c.VPNPeers.length + 1 < 2 ^ 32) :
    vpnSlice c = be32 (beBytesToNat c.VPNCIDR.IP + c.VPNPeers.length + 1) := by
  unfold vpnSlice
  simp only []
  rw [beBytesToNat_To16_four _ hlen]
  rw [show 0xFFFF * 2 ^ 32 + beBytesToNat c.VPNCIDR.IP + (c.VPNPeers.length + 1) =
      0xFFFF * 2 ^ 32 + (beBytesToNat c.VPNCIDR.IP + c.VPNPeers.length + 1) from by omega]
  rw [beBytes_v4 _ hlt]
  simp [be32]

lemma vpnSlice_ge (c : Cluster) (hlen : c.VPNCIDR.IP.length = 4)
    (hn : c.VPNPeers.length + 1 < 2 ^ 63)
    (hN : beBytesToNat c.VPNCIDR.IP < 2 ^ 32)
    (hge : 2 ^ 32 ≤ beBytesToNat c.VPNCIDR.IP + c.VPNPeers.length + 1) :
    5 ≤ (vpnSlice c).length ∧ (vpnSlice c).length ≤ 7 := by
  unfold vpnSlice
  simp only []
  rw [beBytesToNat_To16_four _ hlen]
  rw [show 0xFFFF * 2 ^ 32 + beBytesToNat c.VPNCIDR.IP + (c.VPNPeers.length + 1) =
      0xFFFF * 2 ^ 32 + (beBytesToNat c.VPNCIDR.IP + c.VPNPeers.length + 1) from by omega]
  have hvge : 256 ^ 6 ≤ 0xFFFF * 2 ^ 32 +
      (beBytesToNat c.VPNCIDR.IP + c.VPNPeers.length + 1) := by
    have h6 : (256 : Nat) ^ 6 = 2 ^ 48 := by norm_num
    rw [h6]
    omega
  have hvlt : 0xFFFF * 2 ^ 32 +
      (beBytesToNat c.VPNCIDR.IP + c.VPNPeers.length + 1) < 256 ^ 9 := by
    have h9 : (256 : Nat) ^ 9 = 2 ^ 72 := by norm_num
    rw [h9]
    omega
  have h7 := beBytes_length_ge 6 _ hvge
  have h9 := beBytes_length_le 9 _ hvlt
  rw [if_neg (by omega)]
  simp only [List.length_drop]
  omega

lemma requestVPNIP_v4 (c : Cluster) (h4 : IsV4CIDR c.VPNCIDR)
    (hn : c.VPNPeers.length + 1 < 2 ^ 63) :
    requestVPNIP c =
      if v4NetworkValue c.VPNCIDR + c.VPNPeers.length + 1 < 2 ^ 32 ∧
          Contains c.VPNCIDR (be32 (v4NetworkValue c.VPNCIDR + c.VPNPeers.length + 1)) = true
      then .ok (ipString (be32 (v4NetworkValue c.VPNCIDR + c.VPNPeers.length + 1)))
      else .error (exhaustionMsg c.VPNCIDR) := by
  obtain ⟨hlen, hbytes, ⟨l, hl, hm⟩, _hidem⟩ := h4
  have hmlen : c.VPNCIDR.Mask.length = 4 := by
    rw [hm]; exact cidrMaskBytes_length 4 l
  have hN : beBytesToNat c.VPNCIDR.IP < 2 ^ 32 := by
    have := beBytesToNat_lt c.VPNCIDR.IP (fun x hx => hbytes x hx)
    rw [hlen] at this
    norm_num at this
    exact this
  unfold requestVPNIP v4NetworkValue
  by_cases hlt : beBytesToNat c.VPNCIDR.IP + c.VPNPeers.length + 1 < 2 ^ 32
  · rw [vpnSlice_lt c hlen hlt]
    by_cases hc : Contains c.VPNCIDR
        (be32 (beBytesToNat c.VPNCIDR.IP + c.VPNPeers.length + 1)) = true
    · rw [if_pos hc, if_pos ⟨hlt, hc⟩]
    · rw [if_neg (by simpa using hc), if_neg (fun hcontr => hc hcontr.2)]
  · obtain ⟨h5, h7⟩ := vpnSlice_ge c hlen hn hN (by omega)
    have hcont : Contains c.VPNCIDR (vpnSlice c) = false := by
      unfold Contains
      simp only [networkNumberAndMask_v4 c.VPNCIDR hlen hmlen]
      rw [To4_nil_of_length _ (by omega) (by omega)]
      rw [if_pos rfl]
      rw [if_pos (by rw [hlen]; omega)]
    rw [hcont]
    simp only [Bool.false_eq_true, if_false]
    rw [if_neg (fun hcontr => hlt hcontr.1)]

/-! ## `GenerateVPNPeer` characterization on IPv4 CIDRs -/

lemma parseIPScan_digits (s : GoStr) : ∀ pre rest : GoStr,
    (∀ c ∈ pre, 48 ≤ c ∧ c ≤ 57) →
    parseIPScan s (pre ++ 46 :: rest) = parseIPv4 s := by
  intro pre
  induction pre with
  | nil =>
    intro rest _
    simp [parseIPScan]
  | cons c t IH =>
    intro rest h
    have hc := h c (by simp)
    simp only [List.cons_append, parseIPScan]
    rw [if_neg (by omega), if_neg (by omega)]
    exact IH rest (fun y hy => h y (by simp [hy]))

lemma ParseIP_ipString_be32 (x : Nat) :
    ParseIP (ipString (be32 x)) =
      IPv4 (x / 2 ^ 24 % 256) (x / 2 ^ 16 % 256) (x / 2 ^ 8 % 256) (x % 256) := by
  have hip : ipString (be32 x) =
      uitoa (x / 2 ^ 24 % 256) ++ 46 :: (uitoa (x / 2 ^ 16 % 256) ++ 46 ::
        (uitoa (x / 2 ^ 8 % 256) ++ 46 :: uitoa (x % 256))) := by
    show ipString [x / 2 ^ 24 % 256, x / 2 ^ 16 % 256, x / 2 ^ 8 % 256, x % 256] = _
    rw [ipString_four]
  rw [hip]
  unfold ParseIP
  rw [parseIPScan_digits _ _ _ (fun c hc => uitoa_mem_digit _ c hc)]
  rw [← hip]
  have h1 : x / 2 ^ 24 % 256 ≤ 255 := by omega
  have h2 : x / 2 ^ 16 % 256 ≤ 255 := by omega
  have h3 : x / 2 ^ 8 % 256 ≤ 255 := by omega
  have h4 : x % 256 ≤ 255 := by omega
  rw [hip]
  exact parseIPv4_dotted _ _ _ _ h1 h2 h3 h4

lemma ipNetString_mapped (a b c d : Nat) :
    ipNetString ⟨IPv4 a b c d, CIDRMask 128 128⟩ =
      ipString [a, b, c, d] ++ 47 :: uitoa 32 := by
  have hmask : CIDRMask 128 128 =
      [255, 255, 255, 255, 255, 255, 255, 255, 255, 255, 255, 255,
       255, 255, 255, 255] := by decide
  have hnnm : networkNumberAndMask ⟨IPv4 a b c d, CIDRMask 128 128⟩ =
      ([a, b, c, d], [255, 255, 255, 255]) := by
    unfold networkNumberAndMask
    simp only [To4_IPv4, hmask]
    rw [if_neg (by simp)]
    simp
  unfold ipNetString
  simp only [hnnm]
  rw [if_neg (by simp)]
  have hsml : simpleMaskLength [255, 255, 255, 255] = some 32 := by decide
  rw [hsml]

lemma GenerateVPNPeer_v4_ok (c : Cluster) (h4 : IsV4CIDR c.VPNCIDR)
    (hn : c.VPNPeers.length + 1 < 2 ^ 63)
    (hlt : v4NetworkValue c.VPNCIDR + c.VPNPeers.length + 1 < 2 ^ 32)
    (hc : Contains c.VPNCIDR
      (be32 (v4NetworkValue c.VPNCIDR + c.VPNPeers.length + 1)) = true)
    (name : GoStr) (k : WireguardKey) :
    c.GenerateVPNPeer name (.ok k) =
      (none, { c with VPNPeers := c.VPNPeers ++ [{
        Name := name,
        Address := addrStr (v4NetworkValue c.VPNCIDR + c.VPNPeers.length + 1),
        PrivateKey := k.KeyString,
        PublicKey := k.PublicKeyString }] }) := by
  unfold Cluster.GenerateVPNPeer
  rw [requestVPNIP_v4 c h4 hn, if_pos ⟨hlt, hc⟩]
  simp only []
  rw [ParseIP_ipString_be32]
  rw [if_pos (by simp [IPv4, v4InV6Head])]
  rw [ipNetString_mapped]
  rfl

lemma GenerateVPNPeer_v4_fail (c : Cluster) (h4 : IsV4CIDR c.VPNCIDR)
    (hn : c.VPNPeers.length + 1 < 2 ^ 63)
    (key : Except GoStr WireguardKey) (name : GoStr)
    (hbad : ¬(v4NetworkValue c.VPNCIDR + c.VPNPeers.length + 1 < 2 ^ 32 ∧
      Contains c.VPNCIDR
        (be32 (v4NetworkValue c.VPNCIDR + c.VPNPeers.length + 1)) = true)) :
    c.GenerateVPNPeer name key = (some (exhaustionMsg c.VPNCIDR), c) := by
  unfold Cluster.GenerateVPNPeer
  rw [requestVPNIP_v4 c h4 hn, if_neg hbad]

lemma addrStr_inj (x y : Nat) (hx : x < 2 ^ 32) (hy : y < 2 ^ 32)
    (h : addrStr x = addrStr y) : x = y := by
  unfold addrStr at h
  have h1 : ipString (be32 x) = ipString (be32 y) := List.append_cancel_right h
  have h2 := congrArg ParseIP h1
  rw [ParseIP_ipString_be32, ParseIP_ipString_be32] at h2
  unfold IPv4 at h2
  have h3 := List.append_cancel_left h2
  simp only [List.cons.injEq, and_true] at h3
  obtain ⟨e1, e2, e3, e4⟩ := h3
  omega

lemma NewCluster_ok (clusterName vpnCIDR : GoStr) (e a : List GoStr) (env : GenEnv)
    (c : Cluster) (h : NewCluster clusterName vpnCIDR e a env = (some c, none)) :
    ∃ net cas etcd api k,
      ParseCIDR vpnCIDR = some net ∧
      env.newCertificateAuthorities = .ok cas ∧
      env.newEtcdServer e = .ok etcd ∧
      env.newKubeAPIServer a = .ok api ∧
      env.generatePrivateKey = .ok k ∧
      ({ zeroCluster with
        Name := clusterName
        VPNCIDR := net
        CertificateAuthorities := cas
        EtcdServer := etcd
        APIServer := api } : Cluster).GenerateVPNPeer
          (gostr "control-plane-ingress") (.ok k) = (none, c) := by
  unfold NewCluster at h
  rcases hp : ParseCIDR vpnCIDR with _ | net
  · rw [hp] at h; simp at h
  · rw [hp] at h
    unfold Cluster.generateCertificates at h
    rcases hcas : env.newCertificateAuthorities with ecas | cas
    · rw [hcas] at h; simp at h
    · rw [hcas] at h
      rcases hetcd : env.newEtcdServer e with eetcd | etcd
      · rw [hetcd] at h; simp at h
      · rw [hetcd] at h
        rcases hapi : env.newKubeAPIServer a with eapi | api
        · rw [hapi] at h; simp at h
        · rw [hapi] at h
          rcases hkey : env.generatePrivateKey with ekey | k
          · rw [hkey] at h
            simp only [] at h
            split at h
            · simp at h
            · next res heq =>
              exfalso
              unfold Cluster.GenerateVPNPeer at heq
              split at heq
              · simp at heq
              · simp at heq
          · rw [hkey] at h
            simp only [] at h
            split at h
            · simp at h
            · next res heq =>
              simp only [Prod.mk.injEq, Option.some.injEq, and_true] at h
              refine ⟨net, cas, etcd, api, k, rfl, rfl, rfl, rfl, rfl, ?_⟩
              rw [← h]
              exact heq

lemma runPeerGens_inv (N : Nat) : ∀ (calls : List (GoStr × Except GoStr WireguardKey))
    (c0 cOut : Cluster),
    runPeerGens c0 calls = some cOut →
    IsV4CIDR c0.VPNCIDR →
    N = v4NetworkValue c0.VPNCIDR →
    c0.VPNPeers.length + calls.length + 1 < 2 ^ 63 →
    N + c0.VPNPeers.length < 2 ^ 32 →
    c0.VPNPeers.map (fun p => p.Address) =
      (List.range c0.VPNPeers.length).map (fun j => addrStr (N + j + 1)) →
    cOut.VPNCIDR = c0.VPNCIDR ∧
    N + cOut.VPNPeers.length < 2 ^ 32 ∧
    cOut.VPNPeers.map (fun p => p.Address) =
      (List.range cOut.VPNPeers.length).map (fun j => addrStr (N + j + 1)) := by
  intro calls
  induction calls with
  | nil =>
    intro c0 cOut h _ _ _ hlt hmap
    simp only [runPeerGens, Option.some.injEq] at h
    subst h
    exact ⟨rfl, hlt, hmap⟩
  | cons call rest IH =>
    intro c0 cOut h h4 hN hbound hlt hmap
    simp only [runPeerGens] at h
    by_cases hcond : (v4NetworkValue c0.VPNCIDR + c0.VPNPeers.length + 1 < 2 ^ 32 ∧
        Contains c0.VPNCIDR
          (be32 (v4NetworkValue c0.VPNCIDR + c0.VPNPeers.length + 1)) = true)
    · rcases call with ⟨name, key⟩
      rcases key with ek | k
      · rw [Cluster.GenerateVPNPeer] at h
        rw [requestVPNIP_v4 c0 h4 (by simp at hbound; omega), if_pos hcond] at h
        simp at h
      · rw [GenerateVPNPeer_v4_ok c0 h4 (by simp at hbound; omega) hcond.1 hcond.2
          name k] at h
        simp only [] at h
        have hres := IH _ cOut h (by simpa using h4) (by simpa using hN)
          (by simp at hbound ⊢; omega)
          (by
            simp only [List.length_append, List.length_cons, List.length_nil]
            have h1 := hcond.1
            omega)
          (by
            simp only [List.map_append, List.length_append, List.map_cons,
              List.map_nil, List.length_cons, List.length_nil]
            rw [hmap, ← hN]
            have : c0.VPNPeers.length + 1 = (c0.VPNPeers.length).succ := rfl
            rw [this, List.range_succ]
            simp [addrStr])
        refine ⟨by rw [hres.1], hres.2.1, hres.2.2⟩
    · rw [GenerateVPNPeer_v4_fail c0 h4 (by simp at hbound; omega) call.2 call.1
        hcond] at h
      simp at h

/-! ## Helper lemmas for the claims -/

lemma generateVPNPeer_cases (c : Cluster) (name : GoStr)
    (key : Except GoStr WireguardKey) :
    (∃ peer : VPNPeer, peer.Name = name ∧
      c.GenerateVPNPeer name key = (none, { c with VPNPeers := c.VPNPeers ++ [peer] })) ∨
    (∃ e, c.GenerateVPNPeer name key = (some e, c)) := by
  unfold Cluster.GenerateVPNPeer
  rcases hr : requestVPNIP c with er | s
  · right; exact ⟨er, rfl⟩
  · rcases key with ek | k
    · right; exact ⟨ek, rfl⟩
    · left
      exact ⟨⟨name,
        ipNetString (if (ParseIP s).length = 16
          then ⟨ParseIP s, CIDRMask 128 128⟩ else ⟨ParseIP s, CIDRMask 32 32⟩),
        k.KeyString, k.PublicKeyString⟩, rfl, rfl⟩

lemma peers_roundtrip (peers : List VPNPeer) :
    newVPNPeersFromv1alpha1 (exportVPNPeers peers) = peers := by
  induction peers with
  | nil => rfl
  | cons p t IH =>
    cases p
    unfold newVPNPeersFromv1alpha1 exportVPNPeers at IH ⊢
    simp only [List.map_cons, List.map_map] at IH ⊢
    rw [show ((fun p : clusterv1alpha1.VPNPeer =>
      ({ Name := p.Name, Address := p.Address, PrivateKey := p.PrivateKey,
         PublicKey := p.PublicKey } : VPNPeer)) ∘ (fun p : VPNPeer =>
      ({ Name := p.Name, Address := p.Address, PrivateKey := p.PrivateKey,
         PublicKey := p.PublicKey } : clusterv1alpha1.VPNPeer))) =
      (fun p : VPNPeer => p) from rfl]
    simp

lemma roundtrip_structure (c : Cluster) :
    NewClusterFromv1alpha1 c.Export =
      { c with VPNCIDR := newVPNCIDRFromv1alpha1 (ipNetString c.VPNCIDR) } := by
  cases c with
  | mk n cas etcd api sce spe cidr peers =>
    cases cas
    cases etcd
    cases api
    unfold NewClusterFromv1alpha1 Cluster.Export certificates.NewCertificateFromv1alpha1
    simp only [Cluster.mk.injEq, true_and, and_true]
    exact peers_roundtrip peers

lemma NewCluster_shape (clusterName vpnCIDR : GoStr) (e a : List GoStr) (env : GenEnv) :
    (NewCluster clusterName vpnCIDR e a env).1 = none ∨
    (NewCluster clusterName vpnCIDR e a env).2 = none := by
  unfold NewCluster
  rcases ParseCIDR vpnCIDR with _ | net
  · left; rfl
  · simp only []
    split
    · left; rfl
    · split
      · left; rfl
      · right; rfl

lemma mapSpecs_acc (env : EncodeEnv) : ∀ (m : Map) (acc : GoStr),
    List.foldl
      (fun res entry =>
        match entry.2.Specs env with
        | (_, some _) => res
        | (clusterSpec, none) => res ++ gostr "---\n" ++ clusterSpec) acc m =
    acc ++ (m.filterMap fun entry =>
      match entry.2.Specs env with
      | (_, some _) => none
      | (clusterSpec, none) => some (gostr "---\n" ++ clusterSpec)).flatten := by
  intro m
  induction m with
  | nil => intro acc; simp
  | cons hd t IH =>
    intro acc
    simp only [List.foldl_cons, List.filterMap_cons]
    rcases hs : hd.2.Specs env with ⟨s, os⟩
    rcases os with _ | err
    · simp only []
      rw [IH]
      simp [List.append_assoc]
    · simp only []
      rw [IH]

lemma newCluster_initial_inv (clusterName vpnCIDR : GoStr) (e a : List GoStr)
    (env : GenEnv) (c0 : Cluster)
    (h0 : NewCluster clusterName vpnCIDR e a env = (some c0, none))
    (h4 : c0.VPNCIDR.IP.length = 4) :
    IsV4CIDR c0.VPNCIDR ∧
    c0.VPNPeers.length = 1 ∧
    v4NetworkValue c0.VPNCIDR + c0.VPNPeers.length < 2 ^ 32 ∧
    c0.VPNPeers.map (fun p => p.Address) =
      (List.range c0.VPNPeers.length).map
        (fun j => addrStr (v4NetworkValue c0.VPNCIDR + j + 1)) ∧
    c0.VPNPeers.map (fun p => p.Name) = [gostr "control-plane-ingress"] := by
  obtain ⟨net, cas, etcd, api, k, hp, _hc1, _hc2, _hc3, _hc4, hgen⟩ :=
    NewCluster_ok clusterName vpnCIDR e a env c0 h0
  have hgen0 := hgen
  rcases generateVPNPeer_cases { zeroCluster with
      Name := clusterName
      VPNCIDR := net
      CertificateAuthorities := cas
      EtcdServer := etcd
      APIServer := api } (gostr "control-plane-ingress") (.ok k) with
    ⟨peer, _hpname, heq⟩ | ⟨errMsg, heq⟩
  · rw [heq] at hgen
    simp only [Prod.mk.injEq, true_and] at hgen
    have hcidr : c0.VPNCIDR = net := by rw [← hgen]
    have hv4 : IsV4CIDR c0.VPNCIDR := by
      rw [hcidr]
      exact ParseCIDR_four vpnCIDR net hp (by rw [← hcidr]; exact h4)
    by_cases hcond : v4NetworkValue net + 0 + 1 < 2 ^ 32 ∧
        Contains net (be32 (v4NetworkValue net + 0 + 1)) = true
    · have hok := GenerateVPNPeer_v4_ok { zeroCluster with
          Name := clusterName
          VPNCIDR := net
          CertificateAuthorities := cas
          EtcdServer := etcd
          APIServer := api } (hcidr ▸ hv4) (show (0 : Nat) + 1 < 2 ^ 63 by decide)
          hcond.1 hcond.2 (gostr "control-plane-ingress") k
      rw [hok] at hgen0
      simp only [Prod.mk.injEq, true_and] at hgen0
      refine ⟨hv4, ?_, ?_, ?_, ?_⟩
      · rw [← hgen0]; rfl
      · rw [hcidr, ← hgen0]
        show v4NetworkValue net + 1 < 2 ^ 32
        have h1 := hcond.1
        omega
      · rw [← hgen0]
        simp [zeroCluster, List.range_succ]
      · rw [← hgen0]
        simp [zeroCluster]
    · have hfail := GenerateVPNPeer_v4_fail { zeroCluster with
          Name := clusterName
          VPNCIDR := net
          CertificateAuthorities := cas
          EtcdServer := etcd
          APIServer := api } (hcidr ▸ hv4) (show (0 : Nat) + 1 < 2 ^ 63 by decide)
          (.ok k) (gostr "control-plane-ingress") hcond
      rw [hfail] at hgen0
      simp at hgen0
  · rw [heq] at hgen
    simp at hgen

lemma goQuote_plain (s : GoStr)
    (h : ∀ b ∈ s, 32 ≤ b ∧ b ≤ 126 ∧ b ≠ 34 ∧ b ≠ 92) :
    goQuote s = 34 :: s ++ [34] := by
  unfold goQuote
  have hmap : (s.map quoteByte).flatten = s := by
    induction s with
    | nil => rfl
    | cons b t IH =>
      obtain ⟨h1, h2, h3, h4⟩ := h b (by simp)
      have hb : quoteByte b = [b] := by
        unfold quoteByte
        rw [if_neg h3, if_neg h4, if_pos ⟨h1, h2⟩]
      simp only [List.map_cons, List.flatten_cons, hb]
      rw [IH (fun y hy => h y (by simp [hy]))]
      rfl
  rw [hmap]

/-! ## The claims -/

/-- C1: on a cluster whose VPN CIDR is a well-formed IPv4 CIDR (and whose
peer count stays below Go's slice-length bound), `requestVPNIP` returns the
address equal to the CIDR network value plus `n + 1` whenever that address is
below `2^32` and contained in the CIDR, and otherwise fails with the
exhaustion error whose message embeds the CIDR's string form.  This is the
amended claim: the original claim also covered IPv6 CIDRs, where the code
diverges (see the counterexample). -/
theorem C1_requestVPNIP_amended (c : Cluster) (h4 : IsV4CIDR c.VPNCIDR)
    (hn : c.VPNPeers.length + 1 < 2 ^ 63) :
    (v4NetworkValue c.VPNCIDR + c.VPNPeers.length + 1 < 2 ^ 32 ∧
        Contains c.VPNCIDR
          (be32 (v4NetworkValue c.VPNCIDR + c.VPNPeers.length + 1)) = true →
      requestVPNIP c =
        .ok (ipString (be32 (v4NetworkValue c.VPNCIDR + c.VPNPeers.length + 1)))) ∧
    (¬ (v4NetworkValue c.VPNCIDR + c.VPNPeers.length + 1 < 2 ^ 32 ∧
        Contains c.VPNCIDR
          (be32 (v4NetworkValue c.VPNCIDR + c.VPNPeers.length + 1)) = true) →
      requestVPNIP c =
        .error (gostr "not enough IP addresses to assign in the \"" ++
          ipNetString c.VPNCIDR ++ gostr "\" CIDR")) := by
  constructor
  · intro hcond
    rw [requestVPNIP_v4 c h4 hn, if_pos hcond]
  · intro hcond
    rw [requestVPNIP_v4 c h4 hn, if_neg hcond]
    rfl

/-- Witness for C1: the demo cluster (one peer on `10.0.0.0/16`) hands out
the address `10.0.0.0 + 2`. -/
theorem C1_requestVPNIP_amended_witness :
    requestVPNIP demoCluster =
      .ok (ipString (be32 (v4NetworkValue demoCluster.VPNCIDR +
        demoCluster.VPNPeers.length + 1))) :=
  (C1_requestVPNIP_amended demoCluster
    ⟨by decide, by decide, ⟨16, by decide, by decide⟩, by decide⟩ (by decide)).1
    (by decide)

/-- Counterexample to C1 as stated: on the valid IPv6 CIDR `1::/16` with zero
peers the address network+1 (the 16-byte `1::1`) is contained in the CIDR,
yet `requestVPNIP` returns the exhaustion error: the intermediate
`big.Int.Bytes` value is 15 bytes long, so the code slices off its first two
bytes and the containment test runs on a 13-byte slice. -/
theorem C1_counterexample :
    ParseCIDR (gostr "1::/16") =
      some ⟨[0, 1, 0, 0, 0, 0, 0, 0, 0, 0, 0, 0, 0, 0, 0, 0],
            [255, 255, 0, 0, 0, 0, 0, 0, 0, 0, 0, 0, 0, 0, 0, 0]⟩ ∧
    beBytesToNat [0, 1, 0, 0, 0, 0, 0, 0, 0, 0, 0, 0, 0, 0, 0, 1] =
      beBytesToNat (To16 [0, 1, 0, 0, 0, 0, 0, 0, 0, 0, 0, 0, 0, 0, 0, 0]) +
        (0 + 1) ∧
    Contains ⟨[0, 1, 0, 0, 0, 0, 0, 0, 0, 0, 0, 0, 0, 0, 0, 0],
              [255, 255, 0, 0, 0, 0, 0, 0, 0, 0, 0, 0, 0, 0, 0, 0]⟩
      [0, 1, 0, 0, 0, 0, 0, 0, 0, 0, 0, 0, 0, 0, 0, 1] = true ∧
    requestVPNIP { zeroCluster with
      VPNCIDR := ⟨[0, 1, 0, 0, 0, 0, 0, 0, 0, 0, 0, 0, 0, 0, 0, 0],
                  [255, 255, 0, 0, 0, 0, 0, 0, 0, 0, 0, 0, 0, 0, 0, 0]⟩ } =
      .error (gostr "not enough IP addresses to assign in the \"" ++
        gostr "1::/16" ++ gostr "\" CIDR") := by
  refine ⟨by decide, by decide, by decide, by rfl⟩

/-- C2: for a cluster built by a successful `NewCluster` whose VPN CIDR is
IPv4 (four network bytes), importing the exported versioned representation
reconstructs the cluster field for field.  This is the amended claim: the
original claim covered every successful `NewCluster`, but for IPv6 VPN CIDRs
the stringified CIDR can reparse to a different byte representation (see the
counterexample). -/
theorem C2_roundtrip_amended (clusterName vpnCIDR : GoStr) (e a : List GoStr)
    (env : GenEnv) (c : Cluster)
    (h : NewCluster clusterName vpnCIDR e a env = (some c, none))
    (h4 : c.VPNCIDR.IP.length = 4) :
    NewClusterFromv1alpha1 c.Export = c := by
  obtain ⟨hv4, -, -, -, -⟩ :=
    newCluster_initial_inv clusterName vpnCIDR e a env c h h4
  rw [roundtrip_structure c]
  unfold newVPNCIDRFromv1alpha1
  rw [ParseCIDR_reparse c.VPNCIDR hv4]
  rfl

/-- Witness for C2: the demo cluster round-trips exactly. -/
theorem C2_roundtrip_amended_witness :
    NewClusterFromv1alpha1 demoCluster.Export = demoCluster :=
  C2_roundtrip_amended (gostr "demo") (gostr "10.0.0.0/16") [] [] sampleGenEnv
    demoCluster (by decide) (by decide)

/-- Counterexample to C2 as stated: `NewCluster` on the IPv4-mapped IPv6 CIDR
`::ffff:102:300/120` succeeds with a 16-byte VPN CIDR, but `Export` renders
it as `1.2.3.0/24`, so the re-imported cluster holds a 4-byte VPN CIDR and
the round-trip is not the identity. -/
theorem C2_counterexample :
    NewCluster (gostr "demo") (gostr "::ffff:102:300/120") [] [] sampleGenEnv =
      (some mappedCluster, none) ∧
    (NewClusterFromv1alpha1 mappedCluster.Export).VPNCIDR ≠ mappedCluster.VPNCIDR := by
  refine ⟨by decide, by decide⟩

/-- C3: for a cluster built by a successful `NewCluster` with an IPv4 VPN
CIDR and extended by any sequence of successful `GenerateVPNPeer` calls, no
two peers share an address.  This is the amended claim: the original claim
also asserted name uniqueness, which the code does not enforce (see the
counterexample). -/
theorem C3_address_uniqueness_amended (clusterName vpnCIDR : GoStr)
    (e a : List GoStr) (env : GenEnv) (c0 c : Cluster)
    (calls : List (GoStr × Except GoStr WireguardKey))
    (h0 : NewCluster clusterName vpnCIDR e a env = (some c0, none))
    (h4 : c0.VPNCIDR.IP.length = 4)
    (hb : c0.VPNPeers.length + calls.length + 1 < 2 ^ 63)
    (hrun : runPeerGens c0 calls = some c) :
    c.VPNPeers.Pairwise (fun p q => p.Address ≠ q.Address) := by
  obtain ⟨hv4, _hlen1, hlt, hmap, _hname⟩ :=
    newCluster_initial_inv clusterName vpnCIDR e a env c0 h0 h4
  obtain ⟨_hcidr, hltOut, hmapOut⟩ :=
    runPeerGens_inv (v4NetworkValue c0.VPNCIDR) calls c0 c hrun hv4 rfl hb hlt hmap
  refine (List.pairwise_map (f := fun p : VPNPeer => p.Address)).mp ?_
  rw [hmapOut]
  refine List.pairwise_map.mpr ?_
  refine List.Pairwise.imp_of_mem ?_ (List.pairwise_lt_range _)
  intro i j hi hj hij heqAddr
  have hi2 : i < c.VPNPeers.length := List.mem_range.mp hi
  have hj2 : j < c.VPNPeers.length := List.mem_range.mp hj
  have := addrStr_inj (v4NetworkValue c0.VPNCIDR + i + 1)
    (v4NetworkValue c0.VPNCIDR + j + 1) (by omega) (by omega) heqAddr
  omega

/-- Witness for C3: the demo cluster plus one worker peer has pairwise
distinct peer addresses. -/
theorem C3_address_uniqueness_amended_witness :
    ((runPeerGens demoCluster
      [(gostr "worker-1", .ok ⟨gostr "wk", gostr "WK"⟩)]).getD
        zeroCluster).VPNPeers.Pairwise (fun p q => p.Address ≠ q.Address) :=
  C3_address_uniqueness_amended (gostr "demo") (gostr "10.0.0.0/16") [] []
    sampleGenEnv demoCluster
    ((runPeerGens demoCluster
      [(gostr "worker-1", .ok ⟨gostr "wk", gostr "WK"⟩)]).getD zeroCluster)
    [(gostr "worker-1", .ok ⟨gostr "wk", gostr "WK"⟩)]
    (by decide) (by decide) (by decide) (by decide)

/-- Counterexample to C3 as stated: a successful `GenerateVPNPeer` call may
reuse the name of an existing peer — generating a second peer named
`control-plane-ingress` on the demo cluster succeeds and leaves two peers
with the same name. -/
theorem C3_counterexample :
    (NewCluster (gostr "demo") (gostr "10.0.0.0/16") [] [] sampleGenEnv).1 =
      some demoCluster ∧
    (runPeerGens demoCluster
      [(gostr "control-plane-ingress", .ok ⟨gostr "k2", gostr "K2"⟩)]).isSome = true ∧
    ¬ ((runPeerGens demoCluster
        [(gostr "control-plane-ingress", .ok ⟨gostr "k2", gostr "K2"⟩)]).getD
          zeroCluster).VPNPeers.Pairwise (fun p q => p.Name ≠ q.Name) := by
  refine ⟨by decide, by decide, by decide⟩

/-- C4: whenever `NewCluster` returns a non-nil error — malformed CIDR,
certificate-generation failure or first-peer failure alike — the returned
cluster is nil; no partially initialized cluster escapes. -/
theorem C4_error_implies_nil (clusterName vpnCIDR : GoStr) (e a : List GoStr)
    (env : GenEnv)
    (h : (NewCluster clusterName vpnCIDR e a env).2 ≠ none) :
    (NewCluster clusterName vpnCIDR e a env).1 = none := by
  rcases NewCluster_shape clusterName vpnCIDR e a env with h1 | h2
  · exact h1
  · exact absurd h2 h

/-- Witness for C4: the malformed CIDR string `banana` yields a nil
cluster. -/
theorem C4_error_implies_nil_witness :
    (NewCluster (gostr "demo") (gostr "banana") [] [] sampleGenEnv).1 = none :=
  C4_error_implies_nil (gostr "demo") (gostr "banana") [] [] sampleGenEnv
    (by decide)

/-- C5: a successful `NewCluster "demo" "10.0.0.0/16"` yields exactly one
peer, `control-plane-ingress` at `10.0.0.1/32`, and a subsequent successful
`GenerateVPNPeer "worker-1"` appends a peer at `10.0.0.2/32`. -/
theorem C5_demo_scenario (e a : List GoStr) (env : GenEnv) (c : Cluster)
    (h : NewCluster (gostr "demo") (gostr "10.0.0.0/16") e a env = (some c, none)) :
    c.VPNPeers.map (fun p => (p.Name, p.Address)) =
      [(gostr "control-plane-ingress", gostr "10.0.0.1/32")] ∧
    ∀ k : WireguardKey,
      (c.GenerateVPNPeer (gostr "worker-1") (.ok k)).1 = none ∧
      ((c.GenerateVPNPeer (gostr "worker-1") (.ok k)).2).VPNPeers.map
          (fun p => (p.Name, p.Address)) =
        [(gostr "control-plane-ingress", gostr "10.0.0.1/32"),
         (gostr "worker-1", gostr "10.0.0.2/32")] := by
  obtain ⟨net, cas, etcd, api, k0, hp, _x1, _x2, _x3, _x4, hgen⟩ :=
    NewCluster_ok _ _ e a env c h
  have hnet : net = ⟨[10, 0, 0, 0], [255, 255, 0, 0]⟩ := by
    have hconc : ParseCIDR (gostr "10.0.0.0/16") =
        some (⟨[10, 0, 0, 0], [255, 255, 0, 0]⟩ : IPNet) := by decide
    rw [hconc] at hp
    exact (Option.some.inj hp).symm
  subst hnet
  have hv4 : IsV4CIDR (⟨[10, 0, 0, 0], [255, 255, 0, 0]⟩ : IPNet) :=
    ⟨by decide, by decide, ⟨16, by decide, by decide⟩, by decide⟩
  have hok := GenerateVPNPeer_v4_ok { zeroCluster with
      Name := gostr "demo"
      VPNCIDR := (⟨[10, 0, 0, 0], [255, 255, 0, 0]⟩ : IPNet)
      CertificateAuthorities := cas
      EtcdServer := etcd
      APIServer := api } hv4 (show (0 : Nat) + 1 < 2 ^ 63 by decide)
      (show v4NetworkValue (⟨[10, 0, 0, 0], [255, 255, 0, 0]⟩ : IPNet) + 0 + 1 <
        2 ^ 32 by decide)
      (show Contains (⟨[10, 0, 0, 0], [255, 255, 0, 0]⟩ : IPNet)
        (be32 (v4NetworkValue (⟨[10, 0, 0, 0], [255, 255, 0, 0]⟩ : IPNet) + 0 + 1)) =
        true by decide)
      (gostr "control-plane-ingress") k0
  rw [hok] at hgen
  simp only [Prod.mk.injEq, true_and] at hgen
  constructor
  · rw [← hgen]
    rfl
  · intro k
    have hok2 := GenerateVPNPeer_v4_ok c (by rw [← hgen]; exact hv4)
      (by rw [← hgen]; exact (show (1 : Nat) + 1 < 2 ^ 63 by decide))
      (by
        rw [← hgen]
        show v4NetworkValue (⟨[10, 0, 0, 0], [255, 255, 0, 0]⟩ : IPNet) + 1 + 1 <
          2 ^ 32
        decide)
      (by
        rw [← hgen]
        show Contains (⟨[10, 0, 0, 0], [255, 255, 0, 0]⟩ : IPNet)
          (be32 (v4NetworkValue (⟨[10, 0, 0, 0], [255, 255, 0, 0]⟩ : IPNet) +
            1 + 1)) = true
        decide)
      (gostr "worker-1") k
    refine ⟨by rw [hok2], ?_⟩
    rw [hok2]
    simp only []
    rw [← hgen]
    simp only [zeroCluster, List.nil_append, List.map_append, List.map_cons,
      List.map_nil, List.length_cons, List.length_nil]
    decide

/-- Witness for C5: the demo scenario under the sample generator
outcomes. -/
theorem C5_demo_scenario_witness :
    demoCluster.VPNPeers.map (fun p => (p.Name, p.Address)) =
      [(gostr "control-plane-ingress", gostr "10.0.0.1/32")] ∧
    ((demoCluster.GenerateVPNPeer (gostr "worker-1")
        (.ok ⟨gostr "wk", gostr "WK"⟩)).2).VPNPeers.map
      (fun p => (p.Name, p.Address)) =
      [(gostr "control-plane-ingress", gostr "10.0.0.1/32"),
       (gostr "worker-1", gostr "10.0.0.2/32")] :=
  ⟨(C5_demo_scenario [] [] sampleGenEnv demoCluster (by decide)).1,
   ((C5_demo_scenario [] [] sampleGenEnv demoCluster (by decide)).2
     ⟨gostr "wk", gostr "WK"⟩).2⟩

/-- C6: with the two-address CIDR `10.0.0.0/31`, `NewCluster` succeeds with
one peer at `10.0.0.1/32`, and every subsequent `GenerateVPNPeer` call fails
with the exhaustion error naming the CIDR and leaves the cluster — hence the
one-peer list — unchanged. -/
theorem C6_tiny_scenario (e a : List GoStr) (env : GenEnv) (c : Cluster)
    (h : NewCluster (gostr "demo") (gostr "10.0.0.0/31") e a env = (some c, none)) :
    c.VPNPeers.map (fun p => (p.Name, p.Address)) =
      [(gostr "control-plane-ingress", gostr "10.0.0.1/32")] ∧
    ∀ (name : GoStr) (key : Except GoStr WireguardKey),
      c.GenerateVPNPeer name key =
        (some (gostr "not enough IP addresses to assign in the \"" ++
          gostr "10.0.0.0/31" ++ gostr "\" CIDR"), c) := by
  obtain ⟨net, cas, etcd, api, k0, hp, _x1, _x2, _x3, _x4, hgen⟩ :=
    NewCluster_ok _ _ e a env c h
  have hnet : net = ⟨[10, 0, 0, 0], [255, 255, 255, 254]⟩ := by
    have hconc : ParseCIDR (gostr "10.0.0.0/31") =
        some (⟨[10, 0, 0, 0], [255, 255, 255, 254]⟩ : IPNet) := by decide
    rw [hconc] at hp
    exact (Option.some.inj hp).symm
  subst hnet
  have hv4 : IsV4CIDR (⟨[10, 0, 0, 0], [255, 255, 255, 254]⟩ : IPNet) :=
    ⟨by decide, by decide, ⟨31, by decide, by decide⟩, by decide⟩
  have hok := GenerateVPNPeer_v4_ok { zeroCluster with
      Name := gostr "demo"
      VPNCIDR := (⟨[10, 0, 0, 0], [255, 255, 255, 254]⟩ : IPNet)
      CertificateAuthorities := cas
      EtcdServer := etcd
      APIServer := api } hv4 (show (0 : Nat) + 1 < 2 ^ 63 by decide)
      (show v4NetworkValue (⟨[10, 0, 0, 0], [255, 255, 255, 254]⟩ : IPNet) + 0 + 1 <
        2 ^ 32 by decide)
      (show Contains (⟨[10, 0, 0, 0], [255, 255, 255, 254]⟩ : IPNet)
        (be32 (v4NetworkValue (⟨[10, 0, 0, 0], [255, 255, 255, 254]⟩ : IPNet) +
          0 + 1)) = true by decide)
      (gostr "control-plane-ingress") k0
  rw [hok] at hgen
  simp only [Prod.mk.injEq, true_and] at hgen
  constructor
  · rw [← hgen]
    rfl
  · intro name key
    have hfail := GenerateVPNPeer_v4_fail c (by rw [← hgen]; exact hv4)
      (by rw [← hgen]; exact (show (1 : Nat) + 1 < 2 ^ 63 by decide))
      key name
      (by
        rw [← hgen]
        show ¬ (v4NetworkValue (⟨[10, 0, 0, 0], [255, 255, 255, 254]⟩ : IPNet) +
          1 + 1 < 2 ^ 32 ∧
          Contains (⟨[10, 0, 0, 0], [255, 255, 255, 254]⟩ : IPNet)
            (be32 (v4NetworkValue (⟨[10, 0, 0, 0], [255, 255, 255, 254]⟩ : IPNet) +
              1 + 1)) = true)
        decide)
    rw [hfail]
    simp only [Prod.mk.injEq, Option.some.injEq, and_true]
    rw [← hgen]
    show exhaustionMsg (⟨[10, 0, 0, 0], [255, 255, 255, 254]⟩ : IPNet) =
      gostr "not enough IP addresses to assign in the \"" ++
        gostr "10.0.0.0/31" ++ gostr "\" CIDR"
    decide

/-- Witness for C6: the tiny cluster rejects a `worker-1` peer with the
exhaustion error and stays unchanged. -/
theorem C6_tiny_scenario_witness :
    tinyCluster.GenerateVPNPeer (gostr "worker-1") (.ok ⟨gostr "wk", gostr "WK"⟩) =
      (some (gostr "not enough IP addresses to assign in the \"" ++
        gostr "10.0.0.0/31" ++ gostr "\" CIDR"), tinyCluster) :=
  (C6_tiny_scenario [] [] sampleGenEnv tinyCluster (by decide)).2 (gostr "worker-1")
    (.ok ⟨gostr "wk", gostr "WK"⟩)

/-- C7: `Map.Specs` returns, with a nil error, the concatenation of the
specs of every member whose `Specs` succeeds, each prefixed by the
`---` document separator line; failing members are silently skipped. -/
theorem C7_map_specs (m : Map) (env : EncodeEnv) :
    Map.Specs m env =
      ((m.filterMap fun entry =>
        match entry.2.Specs env with
        | (_, some _) => none
        | (clusterSpec, none) => some (gostr "---\n" ++ clusterSpec)).flatten,
       none) := by
  have h := mapSpecs_acc env m []
  rw [List.nil_append] at h
  exact congrArg (fun r => (r, none)) h

/-- C8: whenever `Cluster.Specs` fails after a successful scheme
registration, the error message embeds the `%q`-quoted cluster name, and —
for names of printable ASCII free of `"` and `\`, where quoting is
transparent — the raw cluster name.  This is the amended claim: the original
claim covered every failure of `Specs`, but a failing `AddToScheme` is
returned verbatim and need not mention the cluster, and a name containing a
double quote appears only in escaped form (see the counterexample). -/
theorem C8_specs_error_amended (c : Cluster) (env : EncodeEnv)
    (hscheme : env.addToScheme = none) (err : GoStr)
    (herr : (c.Specs env).2 = some err) :
    (∃ s t, err = s ++ goQuote c.Name ++ t) ∧
    ((∀ b ∈ c.Name, 32 ≤ b ∧ b ≤ 126 ∧ b ≠ 34 ∧ b ≠ 92) →
      ∃ s t, err = s ++ c.Name ++ t) := by
  unfold Cluster.Specs at herr
  rw [hscheme] at herr
  simp only [] at herr
  rcases henc : env.encode c.Export with eenc | enc
  · rw [henc] at herr
    simp only [] at herr
    have hmsg := (Option.some.inj herr).symm
    constructor
    · exact ⟨gostr "could not encode cluster ", [],
        by rw [List.append_nil]; exact hmsg⟩
    · intro hname
      refine ⟨gostr "could not encode cluster " ++ [34], [34], ?_⟩
      rw [hmsg, goQuote_plain c.Name hname]
      simp [List.append_assoc]
  · rw [henc] at herr
    simp at herr

/-- Witness for C8: on the demo cluster (a real `NewCluster` product) a
failing encoder surfaces as `could not encode cluster "demo"`, which embeds
the raw name `demo`. -/
theorem C8_specs_error_amended_witness :
    ∃ s t, gostr "could not encode cluster \"demo\"" =
      s ++ demoCluster.Name ++ t :=
  (C8_specs_error_amended demoCluster failingEncodeEnv rfl
    (gostr "could not encode cluster \"demo\"") (by decide)).2 (by decide)

/-- Counterexample to C8 as stated, in both failure modes.  First: when
`AddToScheme` fails with the one-byte message `x`, `Specs` on the demo
cluster returns that message unchanged, and it cannot contain the four-byte
cluster name `demo`.  Second: `NewCluster` accepts the name `de"mo`, and a
failing encode on the resulting cluster yields
`could not encode cluster "de\"mo"`, in which the raw name `de"mo` never
occurs (its quote is escaped), so even the encode path does not always embed
the name. -/
theorem C8_counterexample :
    (demoCluster.Specs badSchemeEnv).2 = some (gostr "x") ∧
    (∀ s t : GoStr, gostr "x" ≠ s ++ gostr "demo" ++ t) ∧
    (NewCluster (gostr "de\"mo") (gostr "10.0.0.0/16") [] [] sampleGenEnv).2 =
      none ∧
    ((((NewCluster (gostr "de\"mo") (gostr "10.0.0.0/16") [] []
        sampleGenEnv).1.getD zeroCluster).Specs failingEncodeEnv).2 =
      some (gostr "could not encode cluster \"de\\\"mo\"")) ∧
    ¬ List.IsInfix (gostr "de\"mo")
      (gostr "could not encode cluster \"de\\\"mo\"") := by
  refine ⟨by decide, ?_, by decide, by decide, by decide⟩
  intro s t hcontra
  have hlen := congrArg List.length hcontra
  simp only [List.length_append] at hlen
  have h1 : (gostr "x").length = 1 := by decide
  have h2 : (gostr "demo").length = 4 := by decide
  omega

/-- C9: `Cluster.VPNPeer` returns the first peer with the requested name and
a nil error when one exists, and a nil peer with the not-found error naming
the peer otherwise; the receiver is never modified (the model is a pure
function of the cluster). -/
theorem C9_vpnPeer_lookup (c : Cluster) (name : GoStr) :
    (c.VPNPeer name).1 = c.VPNPeers.find? (fun peer => peer.Name == name) ∧
    (∀ p, (c.VPNPeer name).1 = some p → p.Name = name ∧ p ∈ c.VPNPeers) ∧
    ((∃ p ∈ c.VPNPeers, p.Name = name) → (c.VPNPeer name).2 = none) ∧
    ((∀ p ∈ c.VPNPeers, p.Name ≠ name) →
      c.VPNPeer name =
        (none, some (gostr "vpn peer " ++ goQuote name ++ gostr " not found"))) := by
  rcases hf : c.VPNPeers.find? (fun peer => peer.Name == name) with _ | peer
  · unfold Cluster.VPNPeer
    rw [hf]
    refine ⟨rfl, ?_, ?_, fun _ => rfl⟩
    · intro p hp
      simp at hp
    · intro ⟨p, hmem, hname⟩
      exfalso
      have hnone := List.find?_eq_none.mp hf p hmem
      rw [hname] at hnone
      simp at hnone
  · unfold Cluster.VPNPeer
    rw [hf]
    have hname0 := List.find?_some hf
    simp only [beq_iff_eq] at hname0
    have hmem : peer ∈ c.VPNPeers := List.mem_of_find?_eq_some hf
    refine ⟨rfl, ?_, fun _ => rfl, ?_⟩
    · intro p hp
      simp only [Option.some.injEq] at hp
      subst hp
      exact ⟨hname0, hmem⟩
    · intro hall
      exact absurd hname0 (hall peer hmem)

/-- Witness for C9: looking up `control-plane-ingress` on the demo cluster
succeeds with a nil error. -/
theorem C9_vpnPeer_lookup_witness :
    (demoCluster.VPNPeer (gostr "control-plane-ingress")).2 = none :=
  (C9_vpnPeer_lookup demoCluster (gostr "control-plane-ingress")).2.2.1
    ⟨⟨gostr "control-plane-ingress", gostr "10.0.0.1/32", gostr "wg-private-key",
       gostr "wg-public-key"⟩, by decide, rfl⟩

/-- C10: `GenerateVPNPeer` only ever appends to the peer list — on success
it appends exactly one peer carrying the requested name and leaves every
other field (and all existing peers) unchanged; on failure the whole
cluster, peer list included, is unchanged. -/
theorem C10_generateVPNPeer_frame (c : Cluster) (name : GoStr)
    (key : Except GoStr WireguardKey) :
    ((c.GenerateVPNPeer name key).1 = none →
      ∃ peer : VPNPeer, peer.Name = name ∧
        (c.GenerateVPNPeer name key).2 =
          { c with VPNPeers := c.VPNPeers ++ [peer] }) ∧
    ((c.GenerateVPNPeer name key).1 ≠ none →
      (c.GenerateVPNPeer name key).2 = c) := by
  rcases generateVPNPeer_cases c name key with ⟨peer, hpn, heq⟩ | ⟨msg, heq⟩
  · constructor
    · intro _
      exact ⟨peer, hpn, by rw [heq]⟩
    · intro hne
      exact absurd (by rw [heq]) hne
  · constructor
    · intro h0
      rw [heq] at h0
      simp at h0
    · intro _
      rw [heq]

/-- Witness for C10: the failing `GenerateVPNPeer` call on the exhausted
tiny cluster leaves the cluster unchanged. -/
theorem C10_generateVPNPeer_frame_witness :
    (tinyCluster.GenerateVPNPeer (gostr "worker-2")
      (.ok ⟨gostr "wk", gostr "WK"⟩)).2 = tinyCluster :=
  (C10_generateVPNPeer_frame tinyCluster (gostr "worker-2")
    (.ok ⟨gostr "wk", gostr "WK"⟩)).2 (by decide)
